import Mathlib

/-!
Shallow embedding of the cooperative-store kiosk settlement and refund core
(`kiosk/views.py process_payment`, `admin_panel/views.py api_process_refund`,
`transactions/models.py`, `members/models.py`, `inventory/models.py`).

Money amounts are modelled in integer centavos (`Int`), VAT-rounding
intermediates in ten-thousandths of a peso, patronage in millionths of a peso.
Database tables are lists of records; Django object `save()` calls become
explicit list updates.  Django `transaction.atomic` semantics are modelled
faithfully: the view commits whatever state it has built whenever it returns a
response (rollback happens only when an exception escapes the view, which the
source prevents with a blanket `except` handler); `api_process_refund` has no
atomic wrapper at all, so every individual write commits as it happens.
-/

namespace Kiosk

/-- Round a non-negative amount of ten-thousandths of a peso to centavos using
round-half-to-even, mirroring Python `Decimal.quantize(Decimal(0.01))` with the
default `ROUND_HALF_EVEN` mode on non-negative inputs. -/
def rhe100 (n : Nat) : Nat :=
  let q := n / 100
  let r := n % 100
  if r < 50 then q
  else if 50 < r then q + 1
  else if q % 2 = 0 then q else q + 1

/-- Modelled from the spec: `settings.VAT_RATE` (the Django settings module is
not part of the sources; the spec and the admin-panel fallbacks fix it at
0.12).  Stored as a numerator over 100. -/
def vatRateNum : Nat := 12

/-- Per-line money fields computed by `TransactionItem.save`
(`transactions/models.py` lines 97-112): `total_price` is the exact 2-decimal
product quantized to centavos; `vat_amount` is `total_price * VAT_RATE`
quantized; `vatable_sale` is the exact difference `total_price - vat`
quantized.  `unit_price` is in centavos, so the products below are in
ten-thousandths of a peso. -/
structure ItemMoney where
  total_price : Nat
  vat_amount : Nat
  vatable_sale : Nat
  deriving Repr, DecidableEq

/-- Embedding of `TransactionItem.save`: compute the derived money fields from
a unit price (centavos) and a quantity. -/
def itemSave (unit_price quantity : Nat) : ItemMoney :=
  let total := rhe100 (unit_price * quantity * 100)
  let vat := rhe100 (vatRateNum * total)
  let vatable := rhe100 ((100 - vatRateNum) * total)
  { total_price := total, vat_amount := vat, vatable_sale := vatable }

/-- Product row (`inventory/models.py`).  Stock is an `IntegerField`, hence
`Int`; prices are non-negative 2-decimal values, stored in centavos. -/
structure Product where
  id : Nat
  name : String
  barcode : String
  price : Nat
  stock_quantity : Int
  is_active : Bool
  deriving Repr, DecidableEq

/-- Member row (`members/models.py`).  `balance` and `utang_balance` are in
centavos and may in principle go negative (the columns carry no check);
`total_patronage` is kept in millionths of a peso because
`calculate_patronage` multiplies a centavo subtotal by a 4-decimal rate.
`pin` models the salted PIN hash as the stored secret itself: `check_pin`
compares a candidate against it. -/
structure Member where
  id : Nat
  rfid_card_number : String
  phone : String
  role : String
  balance : Int
  utang_balance : Int
  total_patronage : Int
  patronage_rate : Option Nat
  pin : Option String
  is_active : Bool
  deriving Repr, DecidableEq

/-- Embedding of `Member.check_pin`. -/
def Member.check_pin (m : Member) (p : String) : Bool :=
  match m.pin with
  | none => false
  | some h => p = h

/-- Embedding of `Member.add_balance`. -/
def Member.add_balance (m : Member) (amount : Int) : Member :=
  { m with balance := m.balance + amount }

/-- Embedding of `Member.deduct_balance`: deduct only when `balance >= amount`,
reporting success as a `Bool` exactly like the source. -/
def Member.deduct_balance (m : Member) (amount : Int) : Bool × Member :=
  if amount ≤ m.balance then (true, { m with balance := m.balance - amount })
  else (false, m)

/-- Embedding of `Member.add_utang`. -/
def Member.add_utang (m : Member) (amount : Int) : Member :=
  { m with utang_balance := m.utang_balance + amount }

/-- Transaction row (`transactions/models.py`).  Money fields in centavos;
`patronage_amount` in millionths of a peso, `patronage_rate` in
ten-thousandths. -/
structure Txn where
  id : Nat
  member_id : Option Nat
  subtotal : Nat
  vatable_sale : Nat
  vat_amount : Nat
  total_amount : Nat
  payment_method : String
  amount_paid : Int
  amount_from_balance : Int
  amount_to_utang : Int
  patronage_amount : Int
  patronage_rate : Nat
  status : String
  notes : String
  deriving Repr, DecidableEq

/-- TransactionItem row (`transactions/models.py`): the sale-time snapshot of
one line. -/
structure TxnItem where
  transaction_id : Nat
  product_id : Option Nat
  product_name : String
  product_barcode : String
  unit_price : Nat
  quantity : Nat
  total_price : Nat
  vat_amount : Nat
  vatable_sale : Nat
  deriving Repr, DecidableEq

/-- BalanceTransaction audit row (`members/models.py`). -/
structure BalanceTxn where
  member_id : Nat
  transaction_type : String
  amount : Int
  balance_before : Int
  balance_after : Int
  utang_before : Int
  utang_after : Int
  notes : String
  deriving Repr, DecidableEq

/-- StockTransaction audit row (`inventory/models.py`). -/
structure StockTxn where
  product_id : Nat
  transaction_type : String
  quantity : Int
  stock_before : Int
  stock_after : Int
  notes : String
  deriving Repr, DecidableEq

/-- The persistent store: one list per table.  Appends go to the end of the
list (chronological order). -/
structure DB where
  products : List Product
  members : List Member
  transactions : List Txn
  txn_items : List TxnItem
  balance_txns : List BalanceTxn
  stock_txns : List StockTxn
  deriving Repr, DecidableEq

/-- Look a product up by primary key (`Product.objects.get(id=...)`). -/
def DB.product? (db : DB) (pid : Nat) : Option Product :=
  db.products.find? (fun p => p.id = pid)

/-- Look an active product up by primary key (the locked
`select_for_update().filter(id__in=..., is_active=True)` queryset). -/
def DB.activeProduct? (db : DB) (pid : Nat) : Option Product :=
  db.products.find? (fun p => p.id = pid && p.is_active)

/-- Look a member up by primary key. -/
def DB.member? (db : DB) (mid : Nat) : Option Member :=
  db.members.find? (fun m => m.id = mid)

/-- Look an active member up by primary key
(`Member.objects.get(id=..., is_active=True)`). -/
def DB.activeMember? (db : DB) (mid : Nat) : Option Member :=
  db.members.find? (fun m => m.id = mid && m.is_active)

/-- Look the first active member up by phone number
(`Member.objects.filter(phone=..., is_active=True).first()`). -/
def DB.memberByPhone? (db : DB) (phone : String) : Option Member :=
  db.members.find? (fun m => m.phone = phone && m.is_active)

/-- Write a product row back (`product.save()`): replace by primary key. -/
def DB.saveProduct (db : DB) (p : Product) : DB :=
  { db with products := db.products.map (fun x => if x.id = p.id then p else x) }

/-- Write a member row back (`member.save()`). -/
def DB.saveMember (db : DB) (m : Member) : DB :=
  { db with members := db.members.map (fun x => if x.id = m.id then m else x) }

/-- Write a transaction row back (`transaction.save()`). -/
def DB.saveTxn (db : DB) (t : Txn) : DB :=
  { db with transactions := db.transactions.map (fun x => if x.id = t.id then t else x) }

/-- Append a freshly created row (`objects.create`). -/
def DB.addTxn (db : DB) (t : Txn) : DB :=
  { db with transactions := db.transactions ++ [t] }

def DB.addItem (db : DB) (it : TxnItem) : DB :=
  { db with txn_items := db.txn_items ++ [it] }

def DB.addBalanceTxn (db : DB) (b : BalanceTxn) : DB :=
  { db with balance_txns := db.balance_txns ++ [b] }

def DB.addStockTxn (db : DB) (s : StockTxn) : DB :=
  { db with stock_txns := db.stock_txns ++ [s] }

def DB.addMember (db : DB) (m : Member) : DB :=
  { db with members := db.members ++ [m] }

/-- Fresh autoincrement primary key for a new member row. -/
def DB.freshMemberId (db : DB) : Nat :=
  (db.members.map Member.id).foldl max 0 + 1

/-- Fresh autoincrement primary key for a new transaction row. -/
def DB.freshTxnId (db : DB) : Nat :=
  (db.transactions.map Txn.id).foldl max 0 + 1

/-- Stock of a product as stored, addressed by primary key. -/
def DB.stockOf? (db : DB) (pid : Nat) : Option Int :=
  (db.product? pid).map Product.stock_quantity

/-- Balance of a member as stored, addressed by primary key. -/
def DB.balanceOf? (db : DB) (mid : Nat) : Option Int :=
  (db.member? mid).map Member.balance

/-- Utang balance of a member as stored, addressed by primary key. -/
def DB.utangOf? (db : DB) (mid : Nat) : Option Int :=
  (db.member? mid).map Member.utang_balance

/-- Status of a transaction as stored, addressed by primary key. -/
def DB.statusOf? (db : DB) (tid : Nat) : Option String :=
  (db.transactions.find? (fun t => t.id = tid)).map Txn.status

/-- One line of the submitted cart (`items` in the request body).  The raw
quantity is an `Int` because the view has to validate its sign and range. -/
structure CartItem where
  product_id : Nat
  quantity : Int
  deriving Repr, DecidableEq

/-- Request context of `process_payment`: body fields plus the pieces of
session state the view consults.  `session_member_id` is
`request.session[kiosk_member_id]`; `auth_user_member` is the id of the
active `Member` row linked to the logged-in user, if any. -/
structure PayInput where
  member_id : Option Nat
  session_member_id : Option Nat
  auth_user_member : Option Nat
  items : List CartItem
  payment_method : String
  pin : Option String
  cash_amount : Option Int
  deriving Repr, DecidableEq

inductive PayResult where
  | ok (txn_id : Nat)
  | err (msg : String)
  deriving Repr, DecidableEq

/-- Modelled from the spec: `settings.DEFAULT_PATRONAGE_RATE` (the settings
module is not in the sources; the spec gives 0.05 as the configured default).
Stored in ten-thousandths. -/
def defaultPatronageRate : Nat := 500

/-- Phone number of the hard-coded fee account (`kiosk/views.py` lines 273 and
379). -/
def sysAccountPhone : String := "3247035272"

/-- Member-resolution prefix of `process_payment` (lines 160-200): session
check and PIN gate for debit/credit, optional user association for cash. -/
def resolveMember (db : DB) (inp : PayInput) : Except String (Option Member) :=
  match inp.member_id with
  | some mid =>
    if (inp.payment_method = "debit" || inp.payment_method = "credit")
        && inp.session_member_id ≠ some mid then
      .error "Member authentication required"
    else
      match db.activeMember? mid with
      | none => .error "Member not found or inactive"
      | some member =>
        if (inp.payment_method = "debit" || inp.payment_method = "credit")
            && member.role ≠ "cashier" && member.role ≠ "admin" then
          match inp.pin with
          | none => .error "PIN is required for member payments"
          | some p =>
            if member.check_pin p then .ok (some member) else .error "Invalid PIN"
        else .ok (some member)
  | none =>
    if inp.payment_method = "debit" || inp.payment_method = "credit" then
      .error "Member required for debit or credit payment"
    else .ok (inp.auth_user_member.bind fun mid => db.activeMember? mid)

/-- Item validation loop of `process_payment` (lines 204-216): positive
integer quantity, capped at 1000. -/
def validateItems : List CartItem → Option String
  | [] => none
  | it :: rest =>
    if it.quantity ≤ 0 then some "Quantity must be a positive number"
    else if 1000 < it.quantity then some "Quantity exceeds maximum allowed"
    else validateItems rest

/-- Stock pre-check loop of `process_payment` (lines 222-229), run on the
locked product rows before any mutation. -/
def precheck (db : DB) : List CartItem → Option String
  | [] => none
  | it :: rest =>
    match db.activeProduct? it.product_id with
    | none => some "Invalid product"
    | some p =>
      if p.stock_quantity < it.quantity then some "Insufficient stock"
      else precheck db rest

/-- Item-creation and stock-decrement loop of `process_payment` (lines
238-266).  The `TransactionItem` row is created before the stock check, and a
failing check raises, which the view catches and turns into an error response;
the partially mutated state is carried out in the second component. -/
def sellLoop (tid : Nat) : DB → List CartItem → DB × Option String
  | db, [] => (db, none)
  | db, it :: rest =>
    match db.activeProduct? it.product_id with
    | none => (db, some "Product not found")
    | some p =>
      let before := p.stock_quantity
      let money := itemSave p.price it.quantity.toNat
      let db1 := db.addItem
        { transaction_id := tid, product_id := some p.id,
          product_name := p.name, product_barcode := p.barcode, unit_price := p.price,
          quantity := it.quantity.toNat, total_price := money.total_price,
          vat_amount := money.vat_amount, vatable_sale := money.vatable_sale }
      if it.quantity ≤ p.stock_quantity then
        let p2 := { p with stock_quantity := p.stock_quantity - it.quantity }
        let db2 := db1.saveProduct p2
        let db3 := db2.addStockTxn
          { product_id := p.id, transaction_type := "out",
            quantity := it.quantity, stock_before := before, stock_after := p2.stock_quantity,
            notes := "Sale via kiosk" }
        sellLoop tid db3 rest
      else (db1, some "Failed to reduce stock")

/-- Embedding of `Transaction.calculate_totals`: sum the already-rounded
per-item fields, with `total_amount = vat_amount + vatable_sale`. -/
def calculate_totals (db : DB) (t : Txn) : Txn :=
  let its := db.txn_items.filter (fun it => it.transaction_id = t.id)
  let st := (its.map TxnItem.total_price).sum
  let vat := (its.map TxnItem.vat_amount).sum
  let vatable := (its.map TxnItem.vatable_sale).sum
  { t with subtotal := st, vatable_sale := vatable, vat_amount := vat,
           total_amount := vat + vatable }

/-- Embedding of `Transaction.calculate_patronage`: pick the member-type rate
or the configured default, store the patronage snapshot on the transaction and
accrue it into the member's `total_patronage`. -/
def calculate_patronage (db : DB) (t : Txn) (member : Option Member) : Txn × DB :=
  let rate := match member with
    | some m => m.patronage_rate.getD defaultPatronageRate
    | none => defaultPatronageRate
  let amount : Int := (t.subtotal * rate : Nat)
  let t2 := { t with patronage_rate := rate, patronage_amount := amount }
  let db1 := db.saveTxn t2
  match member with
  | some m =>
    match db1.member? m.id with
    | some mm => (t2, db1.saveMember { mm with total_patronage := mm.total_patronage + amount })
    | none => (t2, db1)
  | none => (t2, db1)

/-- Credit the hard-coded fee account, creating it on demand, and record a
deposit `BalanceTransaction` — the shared shape of `process_payment` lines
281-321 and 380-422. -/
def creditSysAccount (db : DB) (amount : Int) (note : String) : DB :=
  let pair := match db.memberByPhone? sysAccountPhone with
    | some m => (db, m)
    | none =>
      let m : Member :=
        { id := db.freshMemberId, rfid_card_number := "ACCOUNT_3247035272",
          phone := sysAccountPhone, role := "member", balance := 0, utang_balance := 0,
          total_patronage := 0, patronage_rate := none, pin := none, is_active := true }
      (db.addMember m, m)
  let db1 := pair.1
  let sys := pair.2
  let before := sys.balance
  let sys2 := { sys with balance := before + amount }
  let db2 := db1.saveMember sys2
  db2.addBalanceTxn
    { member_id := sys.id, transaction_type := "deposit", amount := amount,
      balance_before := before, balance_after := sys2.balance, utang_before := 0,
      utang_after := 0, notes := note }

/-- Product-fee block of `process_payment` (lines 271-352): credit the fee
account with 0.50 per unit of cart quantity and, when the sale has a member,
deduct the same total from that member with no sufficiency check. -/
def productFeeStage (db : DB) (memberId : Option Nat) (units : Nat) : DB :=
  let fee : Int := 50 * units
  if 0 < fee then
    let db1 := creditSysAccount db fee "Product fee"
    match memberId with
    | some mid =>
      match db1.member? mid with
      | some m =>
        let before := m.balance
        let m2 := { m with balance := before - fee }
        let db2 := db1.saveMember m2
        db2.addBalanceTxn
          { member_id := mid, transaction_type := "deduction", amount := fee,
            balance_before := before, balance_after := m2.balance, utang_before := 0,
            utang_after := 0, notes := "Product fee" }
      | none => db1
    | none => db1
  else db

/-- Payment waterfall of `process_payment` (lines 361-463).  A `some` first
component is an error response returned from inside the atomic block; the
accompanying state still commits.  The returned `Txn` carries field updates
that are only persisted by the final `transaction.save()`. -/
def waterfall (db : DB) (t : Txn) (memberId : Option Nat) (method : String)
    (cash_amount : Option Int) : Option String × Txn × DB :=
  if method = "debit" then
    match memberId.bind db.member? with
    | some m =>
      if (t.total_amount : Int) ≤ m.balance then
        let m2 := (m.deduct_balance (t.total_amount : Int)).2
        let db1 := db.saveMember m2
        let t1 := { t with amount_from_balance := (t.total_amount : Int), status := "completed" }
        (none, t1, creditSysAccount db1 50 "Debit transaction fee")
      else
        let afb := m.balance
        let m2 := (m.deduct_balance afb).2
        let atu := (t.total_amount : Int) - afb
        let m3 := m2.add_utang atu
        let db1 := (db.saveMember m2).saveMember m3
        let t1 :=
          { t with
            amount_from_balance := afb, amount_to_utang := atu,
            payment_method := "credit", status := "completed" }
        (none, t1, creditSysAccount db1 50 "Debit transaction fee")
    | none => (none, t, db)
  else if method = "credit" then
    match memberId.bind db.member? with
    | some m =>
      let m2 := m.add_utang (t.total_amount : Int)
      let db1 := db.saveMember m2
      (none, { t with amount_to_utang := (t.total_amount : Int), status := "completed" }, db1)
    | none => (none, t, db)
  else if method = "cash" then
    match cash_amount with
    | some c =>
      if c < (t.total_amount : Int) then (some "Insufficient cash", t, db)
      else (none, { t with amount_paid := c, status := "completed" }, db)
    | none => (none, { t with amount_paid := (t.total_amount : Int), status := "completed" }, db)
  else (none, t, db)

/-- Total number of units in the cart (`sum of all quantities`, line 277). -/
def cartUnits (items : List CartItem) : Nat :=
  (items.map (fun it => it.quantity.toNat)).sum

/-- The `Transaction.objects.create(..., status=pending)` row of line 231. -/
def initTxn (db : DB) (inp : PayInput) (member : Option Member) : Txn :=
  { id := db.freshTxnId, member_id := member.map Member.id, subtotal := 0,
    vatable_sale := 0, vat_amount := 0, total_amount := 0,
    payment_method := inp.payment_method, amount_paid := 0, amount_from_balance := 0,
    amount_to_utang := 0, patronage_amount := 0, patronage_rate := 500,
    status := "pending", notes := "" }

/-- Middle stages of `process_payment` after the items have been sold: totals,
patronage, product fee (lines 268-352); returns the transaction value as
updated in memory and the state with all stage writes applied. -/
def feeState (db2 : DB) (t0 : Txn) (member : Option Member) (inp : PayInput) : Txn × DB :=
  let t1 := calculate_totals db2 t0
  let pr := calculate_patronage (db2.saveTxn t1) t1 member
  (pr.1, productFeeStage pr.2 (member.map Member.id) (cartUnits inp.items))

/-- Tail of `process_payment` once the items have been sold: totals, patronage,
product fee, payment waterfall, final save (lines 268-465). -/
def settleAfterSell (db2 : DB) (t0 : Txn) (member : Option Member) (inp : PayInput) :
    PayResult × DB :=
  let fs := feeState db2 t0 member inp
  match waterfall fs.2 fs.1 (member.map Member.id) inp.payment_method inp.cash_amount with
  | (some e, _, db6) => (.err e, db6)
  | (none, t3, db6) => (.ok t0.id, db6.saveTxn t3)

/-- Embedding of the `process_payment` view (`kiosk/views.py` lines 144-528).
The view runs under `transaction.atomic`, but every failure is surfaced by
returning a `JsonResponse` (exceptions are caught by the blanket handler), so
the state built so far commits on every exit path; the returned `DB` is the
committed state. -/
def process_payment (db : DB) (inp : PayInput) : PayResult × DB :=
  if inp.items.isEmpty then (.err "No items in cart", db)
  else if !(inp.payment_method = "debit" || inp.payment_method = "credit"
            || inp.payment_method = "cash") then
    (.err "Invalid payment method", db)
  else
    match resolveMember db inp with
    | .error e => (.err e, db)
    | .ok member =>
      match validateItems inp.items with
      | some e => (.err e, db)
      | none =>
        match precheck db inp.items with
        | some e => (.err e, db)
        | none =>
          let t0 := initTxn db inp member
          match sellLoop t0.id (db.addTxn t0) inp.items with
          | (db2, some e) => (.err e, db2)
          | (db2, none) => settleAfterSell db2 t0 member inp

/-- Request context of `api_process_refund`: body fields plus the caller's
authorization context.  `full_access` is `is_cashier_or_admin(request.user)`;
`user_member` is the id of the active `Member` row of the logged-in user. -/
structure RefundInput where
  transaction_id : Option Nat
  reason : String
  full_access : Bool
  user_member : Option Nat
  deriving Repr, DecidableEq

inductive RefundResult where
  | ok (txn_id : Nat)
  | err (msg : String)
  deriving Repr, DecidableEq

/-- Refund write: `member.add_balance(transaction.total_amount)` (line 1672),
one committed `save()`. -/
def creditOp (mid : Nat) (amount : Int) (db : DB) : DB :=
  match db.member? mid with
  | some m => db.saveMember (m.add_balance amount)
  | none => db

/-- Refund write: the `BalanceTransaction` audit row for the credit (lines
1677-1686), created after the credit has been saved. -/
def recordOp (mid : Nat) (amount : Int) (db : DB) : DB :=
  match db.member? mid with
  | some m =>
    db.addBalanceTxn
      { member_id := mid, transaction_type := "deposit",
        amount := amount, balance_before := m.balance - amount, balance_after := m.balance,
        utang_before := m.utang_balance, utang_after := m.utang_balance,
        notes := "Refund for transaction" }
  | none => db

/-- Refund write: restore one item's stock (lines 1689-1692).  No
`StockTransaction` is created here. -/
def restockOp (pid : Nat) (qty : Nat) (db : DB) : DB :=
  match db.product? pid with
  | some p => db.saveProduct { p with stock_quantity := p.stock_quantity + qty }
  | none => db

/-- Refund write: mark the transaction cancelled and overwrite its notes
(lines 1694-1697), one committed `save()`. -/
def statusOp (tid : Nat) (reason : String) (db : DB) : DB :=
  match db.transactions.find? (fun t => t.id = tid) with
  | some t =>
    db.saveTxn
      { t with
        status := "cancelled",
        notes := if reason = "" then "Refunded" else "Refunded. " ++ reason }
  | none => db

/-- The sequence of individually committed writes a refund performs, in source
order.  `api_process_refund` has no `transaction.atomic` wrapper, so each of
these commits as soon as it runs. -/
def refundOps (db : DB) (t : Txn) (reason : String) : List (DB → DB) :=
  (match t.member_id with
   | some mid => [creditOp mid (t.total_amount : Int), recordOp mid (t.total_amount : Int)]
   | none => [])
  ++ (db.txn_items.filter (fun it => it.transaction_id = t.id)).filterMap
       (fun it => it.product_id.map (fun pid => restockOp pid it.quantity))
  ++ [statusOp t.id reason]

def applyOps (ops : List (DB → DB)) (db : DB) : DB :=
  ops.foldl (fun d f => f d) db

/-- Validation and authorization prefix of `api_process_refund` (lines
1629-1657): everything checked before the first write. -/
def refundEligible (db : DB) (inp : RefundInput) : Except String Txn :=
  match inp.transaction_id with
  | none => .error "Transaction ID is required"
  | some tid =>
    match db.transactions.find? (fun t => t.id = tid && t.status = "completed") with
    | none => .error "Transaction not found or not eligible for refund"
    | some t =>
      if inp.full_access then .ok t
      else
        match inp.user_member with
        | none => .error "You do not have permission to process refunds"
        | some um =>
          if t.member_id = some um then .ok t
          else .error "You can only refund your own transactions"

/-- Embedding of the `api_process_refund` view (`admin_panel/views.py` lines
1619-1720) on its complete, fault-free execution. -/
def api_process_refund (db : DB) (inp : RefundInput) : RefundResult × DB :=
  match refundEligible db inp with
  | .error e => (.err e, db)
  | .ok t => (.ok t.id, applyOps (refundOps db t inp.reason) db)

/-- State persisted when a fault (an exception, caught by the blanket handler
at line 1719) interrupts `api_process_refund` after its first `k` writes.
Because the view has no `transaction.atomic` wrapper, each write has already
committed individually and nothing is rolled back. -/
def refundUpTo (db : DB) (inp : RefundInput) (k : Nat) : DB :=
  match refundEligible db inp with
  | .error _ => db
  | .ok t => applyOps ((refundOps db t inp.reason).take k) db

/-- Abbreviation for the transaction value produced by `calculate_patronage`. -/
def patronageTxn (t : Txn) (rate : Nat) : Txn :=
  { t with patronage_rate := rate, patronage_amount := ((t.subtotal * rate : Nat) : Int) }

/-! Concrete rows and states used by the concrete-run theorems: one product at
55.00 with stock on hand, one ordinary member holding a 30.00 balance, and the
corresponding sold-transaction state for the refund runs. -/

def itemProduct : Product :=
  { id := 1, name := "Item", barcode := "B1", price := 5500, stock_quantity := 10,
    is_active := true }

def cardMember : Member :=
  { id := 1, rfid_card_number := "R1", phone := "0912", role := "member", balance := 3000,
    utang_balance := 0, total_patronage := 0, patronage_rate := none, pin := some "1234",
    is_active := true }

def splitDb : DB :=
  { products := [itemProduct], members := [cardMember], transactions := [], txn_items := [],
    balance_txns := [], stock_txns := [] }

/-- Debit settlement request: the member with balance 30.00 buys the 55.00
item, PIN supplied, RFID session in place. -/
def splitInput : PayInput :=
  { member_id := some 1, session_member_id := some 1, auth_user_member := none,
    items := [{ product_id := 1, quantity := 1 }], payment_method := "debit",
    pin := some "1234", cash_amount := none }

/-- Cash settlement request with cash below the 55.00 total. -/
def cashShortInput : PayInput :=
  { member_id := none, session_member_id := none, auth_user_member := none,
    items := [{ product_id := 1, quantity := 1 }], payment_method := "cash",
    pin := none, cash_amount := some 4000 }

/-- A completed cash sale of two units of the product, owned by the member. -/
def soldTxn : Txn :=
  { id := 7, member_id := some 1, subtotal := 11000, vatable_sale := 9680, vat_amount := 1320,
    total_amount := 11000, payment_method := "cash", amount_paid := 11000,
    amount_from_balance := 0, amount_to_utang := 0, patronage_amount := 0,
    patronage_rate := 500, status := "completed", notes := "" }

def soldItem : TxnItem :=
  { transaction_id := 7, product_id := some 1, product_name := "Item", product_barcode := "B1",
    unit_price := 5500, quantity := 2, total_price := 11000, vat_amount := 1320,
    vatable_sale := 9680 }

def refundDb : DB :=
  { products := [{ itemProduct with stock_quantity := 4 }], members := [cardMember],
    transactions := [soldTxn], txn_items := [soldItem], balance_txns := [], stock_txns := [] }

def refundReq : RefundInput :=
  { transaction_id := some 7, reason := "", full_access := true, user_member := none }

def cancelledTxn : Txn :=
  { soldTxn with status := "cancelled" }

def cancelledDb : DB :=
  { refundDb with transactions := [cancelledTxn] }

/-- The hard-coded system fee account, already present in the store. -/
def sysMember : Member :=
  { id := 2, rfid_card_number := "ACCOUNT_3247035272", phone := "3247035272",
    role := "member", balance := 0, utang_balance := 0, total_patronage := 0,
    patronage_rate := none, pin := none, is_active := true }

/-- The split-settlement store with the system fee account already created. -/
def feeDb : DB :=
  { splitDb with members := [cardMember, sysMember] }

/-! General list lemmas about `find?` over a pointwise-predicate-preserving
map, used to reason about row updates addressed by primary key. -/

theorem find?_map_pres {α : Type} (u : α → α) (p : α → Bool) :
    ∀ l : List α, (∀ x ∈ l, p (u x) = p x) →
      (l.map u).find? p = (l.find? p).map u := by
  intro l
  induction l with
  | nil => intro _; rfl
  | cons a t ih =>
    intro h
    have ha := h a (List.mem_cons_self a t)
    have ht : ∀ x ∈ t, p (u x) = p x := fun x hx => h x (List.mem_cons_of_mem a hx)
    cases hpa : p a with
    | false =>
      have : p (u a) = false := ha.trans hpa
      simp [List.find?_cons, hpa, this, ih ht]
    | true =>
      have : p (u a) = true := ha.trans hpa
      simp [List.find?_cons, hpa, this]

theorem find?_map_eq_self {α : Type} (u : α → α) (p : α → Bool) (l : List α)
    (h : ∀ x ∈ l, p (u x) = p x) (h2 : ∀ y ∈ l, p y = true → u y = y) :
    (l.map u).find? p = l.find? p := by
  rw [find?_map_pres u p l h]
  cases hf : l.find? p with
  | none => rfl
  | some y =>
    have hy : y ∈ l := List.mem_of_find?_eq_some hf
    have hpy : p y = true := List.find?_some hf
    simp [h2 y hy hpy]

theorem key_inj {α : Type} (key : α → Nat) :
    ∀ l : List α, (l.map key).Nodup →
      ∀ x ∈ l, ∀ y ∈ l, key x = key y → x = y := by
  intro l
  induction l with
  | nil => intro _ x hx; cases hx
  | cons a t ih =>
    intro hnd x hx y hy hk
    simp only [List.map_cons, List.nodup_cons] at hnd
    rcases List.mem_cons.mp hx with hx1 | hx2 <;>
      rcases List.mem_cons.mp hy with hy1 | hy2
    · exact hx1.trans hy1.symm
    · subst hx1
      exact absurd (hk ▸ List.mem_map_of_mem key hy2) hnd.1
    · subst hy1
      exact absurd (hk ▸ List.mem_map_of_mem key hx2) hnd.1
    · exact ih hnd.2 x hx2 y hy2 hk

theorem find?_of_unique {α : Type} (p : α → Bool) :
    ∀ l : List α, ∀ x ∈ l, p x = true → (∀ y ∈ l, p y = true → y = x) →
      l.find? p = some x := by
  intro l
  induction l with
  | nil => intro x hx; cases hx
  | cons a t ih =>
    intro x hx hpx huniq
    rcases List.mem_cons.mp hx with h1 | h2
    · subst h1; simp [List.find?_cons, hpx]
    · cases hpa : p a with
      | true =>
        have : a = x := huniq a (List.mem_cons_self a t) hpa
        subst this; simp [List.find?_cons, hpa]
      | false =>
        have : t.find? p = some x :=
          ih x h2 hpx (fun y hy hpy => huniq y (List.mem_cons_of_mem a hy) hpy)
        simp [List.find?_cons, hpa, this]

theorem find?_weaken {α : Type} (p q : α → Bool) :
    ∀ l : List α, (∀ x, p x = true → q x = true) →
      ∀ x, l.find? p = some x → (l.find? q).isSome := by
  intro l
  induction l with
  | nil => intro _ x h; cases h
  | cons a t ih =>
    intro himp x hf
    cases hqa : q a with
    | true => simp [List.find?_cons, hqa]
    | false =>
      have hpa : p a = false := by
        cases hpa : p a with
        | false => rfl
        | true => exact absurd (himp a hpa) (by simp [hqa])
      simp only [List.find?_cons, hpa] at hf
      simp [List.find?_cons, hqa]
      have := ih himp x hf
      simpa using this

/-! Lookup lemmas for primary-key addressed row updates. -/

theorem member?_spec (db : DB) (mid : Nat) (m : Member) (h : db.member? mid = some m) :
    m ∈ db.members ∧ m.id = mid := by
  refine ⟨List.mem_of_find?_eq_some h, ?_⟩
  simpa using List.find?_some h

theorem activeMember?_spec (db : DB) (mid : Nat) (m : Member)
    (h : db.activeMember? mid = some m) :
    m ∈ db.members ∧ m.id = mid ∧ m.is_active = true := by
  refine ⟨List.mem_of_find?_eq_some h, ?_⟩
  have := List.find?_some h
  simp only [Bool.and_eq_true, decide_eq_true_eq] at this
  exact ⟨this.1, this.2⟩

theorem memberByPhone?_spec (db : DB) (ph : String) (m : Member)
    (h : db.memberByPhone? ph = some m) :
    m ∈ db.members ∧ m.phone = ph ∧ m.is_active = true := by
  refine ⟨List.mem_of_find?_eq_some h, ?_⟩
  have := List.find?_some h
  simp only [Bool.and_eq_true, decide_eq_true_eq] at this
  exact ⟨this.1, this.2⟩

theorem product?_spec (db : DB) (pid : Nat) (p : Product) (h : db.product? pid = some p) :
    p ∈ db.products ∧ p.id = pid := by
  refine ⟨List.mem_of_find?_eq_some h, ?_⟩
  simpa using List.find?_some h

theorem activeProduct?_spec (db : DB) (pid : Nat) (p : Product)
    (h : db.activeProduct? pid = some p) :
    p ∈ db.products ∧ p.id = pid ∧ p.is_active = true := by
  refine ⟨List.mem_of_find?_eq_some h, ?_⟩
  have := List.find?_some h
  simp only [Bool.and_eq_true, decide_eq_true_eq] at this
  exact ⟨this.1, this.2⟩

theorem member?_isSome_of_mem (db : DB) (m : Member) (h : m ∈ db.members) :
    (db.member? m.id).isSome := by
  simp only [DB.member?]
  exact List.find?_isSome.mpr ⟨m, h, by simp⟩

theorem product?_isSome_of_mem (db : DB) (p : Product) (h : p ∈ db.products) :
    (db.product? p.id).isSome := by
  simp only [DB.product?]
  exact List.find?_isSome.mpr ⟨p, h, by simp⟩

theorem member?_saveMember_ne (db : DB) (m : Member) (mid : Nat) (h : mid ≠ m.id) :
    (db.saveMember m).member? mid = db.member? mid := by
  simp only [DB.saveMember, DB.member?]
  apply find?_map_eq_self
  · intro x _
    by_cases hx : x.id = m.id
    · simp [hx, Ne.symm h]
    · simp [hx]
  · intro y _ hp
    have hy : y.id = mid := by simpa using hp
    have : ¬ y.id = m.id := by rw [hy]; exact h
    simp [this]

theorem member?_saveMember_self (db : DB) (m : Member) (h : (db.member? m.id).isSome) :
    (db.saveMember m).member? m.id = some m := by
  simp only [DB.saveMember, DB.member?] at *
  rw [find?_map_pres]
  · obtain ⟨y, hy⟩ := Option.isSome_iff_exists.mp h
    have hyid : y.id = m.id := by simpa using List.find?_some hy
    rw [hy]
    simp [hyid]
  · intro x _
    by_cases hxid : x.id = m.id
    · simp [hxid]
    · simp [hxid]

theorem product?_saveProduct_ne (db : DB) (p : Product) (pid : Nat) (h : pid ≠ p.id) :
    (db.saveProduct p).product? pid = db.product? pid := by
  simp only [DB.saveProduct, DB.product?]
  apply find?_map_eq_self
  · intro x _
    by_cases hx : x.id = p.id
    · simp [hx, Ne.symm h]
    · simp [hx]
  · intro y _ hp
    have hy : y.id = pid := by simpa using hp
    have : ¬ y.id = p.id := by rw [hy]; exact h
    simp [this]

theorem product?_saveProduct_self (db : DB) (p : Product) (h : (db.product? p.id).isSome) :
    (db.saveProduct p).product? p.id = some p := by
  simp only [DB.saveProduct, DB.product?] at *
  rw [find?_map_pres]
  · obtain ⟨y, hy⟩ := Option.isSome_iff_exists.mp h
    have hyid : y.id = p.id := by simpa using List.find?_some hy
    rw [hy]
    simp [hyid]
  · intro x _
    by_cases hxid : x.id = p.id
    · simp [hxid]
    · simp [hxid]

theorem txnFind_saveTxn_self (db : DB) (t : Txn)
    (h : (db.transactions.find? (fun x => x.id = t.id)).isSome) :
    (db.saveTxn t).transactions.find? (fun x => x.id = t.id) = some t := by
  simp only [DB.saveTxn]
  rw [find?_map_pres]
  · obtain ⟨y, hy⟩ := Option.isSome_iff_exists.mp h
    have hyid : y.id = t.id := by simpa using List.find?_some hy
    rw [hy]
    simp [hyid]
  · intro x _
    by_cases hxid : x.id = t.id
    · simp [hxid]
    · simp [hxid]

theorem memberByPhone?_saveMember (db : DB) (m m0 : Member) (ph : String)
    (hnd : (db.members.map Member.id).Nodup)
    (h0 : db.member? m.id = some m0)
    (hph : m.phone = m0.phone) (hact : m.is_active = m0.is_active) :
    (db.saveMember m).memberByPhone? ph
      = (db.memberByPhone? ph).map (fun x => if x.id = m.id then m else x) := by
  have hm0 := member?_spec db m.id m0 h0
  simp only [DB.saveMember, DB.memberByPhone?]
  apply find?_map_pres
  intro x hx
  by_cases hxid : x.id = m.id
  · have : x = m0 := key_inj Member.id db.members hnd x hx m0 hm0.1 (hxid.trans hm0.2.symm)
    subst this
    simp [hxid, hph, hact]
  · simp [hxid]

theorem balanceOf?_save_pres (db : DB) (mm m' : Member)
    (h0 : db.member? m'.id = some mm) (hb : m'.balance = mm.balance) (mid : Nat) :
    (db.saveMember m').balanceOf? mid = db.balanceOf? mid := by
  by_cases hmid : mid = m'.id
  · subst hmid
    have hs : (db.member? m'.id).isSome := by simp [h0]
    simp [DB.balanceOf?, member?_saveMember_self db m' hs, h0, hb]
  · simp [DB.balanceOf?, member?_saveMember_ne db m' mid hmid]

theorem utangOf?_save_pres (db : DB) (mm m' : Member)
    (h0 : db.member? m'.id = some mm) (hu : m'.utang_balance = mm.utang_balance) (mid : Nat) :
    (db.saveMember m').utangOf? mid = db.utangOf? mid := by
  by_cases hmid : mid = m'.id
  · subst hmid
    have hs : (db.member? m'.id).isSome := by simp [h0]
    simp [DB.utangOf?, member?_saveMember_self db m' hs, h0, hu]
  · simp [DB.utangOf?, member?_saveMember_ne db m' mid hmid]

theorem saveMember_ids (db : DB) (m : Member) :
    (db.saveMember m).members.map Member.id = db.members.map Member.id := by
  simp only [DB.saveMember, List.map_map]
  apply List.map_congr_left
  intro x _
  by_cases hx : x.id = m.id
  · simp [hx]
  · simp [hx]

theorem member?_of_mem_nodup (db : DB) (m : Member)
    (hnd : (db.members.map Member.id).Nodup) (hm : m ∈ db.members) :
    db.member? m.id = some m := by
  apply find?_of_unique
  · exact hm
  · simp
  · intro y hy hpy
    have : y.id = m.id := by simpa using hpy
    exact key_inj Member.id db.members hnd y hy m hm this

theorem member?_isSome_saveMember (db : DB) (m' : Member) (mid : Nat)
    (h : (db.member? mid).isSome) : ((db.saveMember m').member? mid).isSome := by
  by_cases hmid : mid = m'.id
  · subst hmid
    simp [member?_saveMember_self db m' h]
  · simp [member?_saveMember_ne db m' mid hmid, h]

/-! Rounding lemmas for the VAT decomposition. -/

theorem rhe100_split (t : Nat) : rhe100 (12 * t) + rhe100 (88 * t) = t := by
  simp only [rhe100]
  have h1 := Nat.div_add_mod (12 * t) 100
  have h2 := Nat.div_add_mod (88 * t) 100
  have m1 := Nat.mod_lt (12 * t) (show 0 < 100 by decide)
  have m2 := Nat.mod_lt (88 * t) (show 0 < 100 by decide)
  split_ifs <;> omega

theorem rhe100_mul_100 (n : Nat) : rhe100 (n * 100) = n := by
  simp only [rhe100]
  have h1 := Nat.div_add_mod (n * 100) 100
  have m1 := Nat.mod_lt (n * 100) (show 0 < 100 by decide)
  split_ifs <;> omega

/-! Stage lemmas for the settlement pipeline. -/

theorem cartUnits_pos (items : List CartItem) (hne : items.isEmpty = false)
    (hv : validateItems items = none) : 0 < cartUnits items := by
  cases items with
  | nil => simp at hne
  | cons it rest =>
    simp only [validateItems] at hv
    by_cases h0 : it.quantity ≤ 0
    · simp [h0] at hv
    · have : (1 : Nat) ≤ it.quantity.toNat := by omega
      simp only [cartUnits, List.map_cons, List.sum_cons]
      omega

theorem sellLoop_members (tid : Nat) :
    ∀ (l : List CartItem) (db : DB), ((sellLoop tid db l).1).members = db.members := by
  intro l
  induction l with
  | nil => intro db; rfl
  | cons it rest ih =>
    intro db
    cases hp : db.activeProduct? it.product_id with
    | none => simp [sellLoop, hp]
    | some p =>
      by_cases hq : it.quantity ≤ p.stock_quantity
      · simp [sellLoop, hp, hq, ih, DB.addItem, DB.saveProduct, DB.addStockTxn]
      · simp [sellLoop, hp, hq, DB.addItem]

theorem sellLoop_transactions (tid : Nat) :
    ∀ (l : List CartItem) (db : DB),
      ((sellLoop tid db l).1).transactions = db.transactions := by
  intro l
  induction l with
  | nil => intro db; rfl
  | cons it rest ih =>
    intro db
    cases hp : db.activeProduct? it.product_id with
    | none => simp [sellLoop, hp]
    | some p =>
      by_cases hq : it.quantity ≤ p.stock_quantity
      · simp [sellLoop, hp, hq, ih, DB.addItem, DB.saveProduct, DB.addStockTxn]
      · simp [sellLoop, hp, hq, DB.addItem]

theorem sellLoop_balance_txns (tid : Nat) :
    ∀ (l : List CartItem) (db : DB),
      ((sellLoop tid db l).1).balance_txns = db.balance_txns := by
  intro l
  induction l with
  | nil => intro db; rfl
  | cons it rest ih =>
    intro db
    cases hp : db.activeProduct? it.product_id with
    | none => simp [sellLoop, hp]
    | some p =>
      by_cases hq : it.quantity ≤ p.stock_quantity
      · simp [sellLoop, hp, hq, ih, DB.addItem, DB.saveProduct, DB.addStockTxn]
      · simp [sellLoop, hp, hq, DB.addItem]

theorem sellLoop_stock_nonneg (tid : Nat) :
    ∀ (l : List CartItem) (db : DB),
      (∀ p ∈ db.products, 0 ≤ p.stock_quantity) →
      ∀ q ∈ ((sellLoop tid db l).1).products, 0 ≤ q.stock_quantity := by
  intro l
  induction l with
  | nil => intro db h; exact h
  | cons it rest ih =>
    intro db h
    cases hp : db.activeProduct? it.product_id with
    | none =>
      intro q hq
      simp only [sellLoop, hp] at hq
      exact h q hq
    | some p =>
      by_cases hq : it.quantity ≤ p.stock_quantity
      · simp only [sellLoop, hp, hq, if_true]
        apply ih
        intro q hqmem
        simp only [DB.addItem, DB.saveProduct, DB.addStockTxn] at hqmem
        rcases List.mem_map.mp hqmem with ⟨y, hy, rfl⟩
        by_cases hid : y.id = p.id
        · simp only [Product.mk.injEq] at hid ⊢
          simp [hid]
          omega
        · simp [hid]
          exact h y hy
      · intro q hqmem
        simp only [sellLoop, hp, hq, if_false, DB.addItem] at hqmem
        exact h q hqmem

/-! Transparent lookup lemmas: operations that do not touch a table leave its
lookups untouched (all definitional). -/

@[simp] theorem member?_saveTxn (db : DB) (t : Txn) (i : Nat) :
    (db.saveTxn t).member? i = db.member? i := rfl

@[simp] theorem member?_addTxn (db : DB) (t : Txn) (i : Nat) :
    (db.addTxn t).member? i = db.member? i := rfl

@[simp] theorem member?_addItem (db : DB) (it : TxnItem) (i : Nat) :
    (db.addItem it).member? i = db.member? i := rfl

@[simp] theorem member?_addBalanceTxn (db : DB) (b : BalanceTxn) (i : Nat) :
    (db.addBalanceTxn b).member? i = db.member? i := rfl

@[simp] theorem member?_addStockTxn (db : DB) (s : StockTxn) (i : Nat) :
    (db.addStockTxn s).member? i = db.member? i := rfl

@[simp] theorem member?_saveProduct (db : DB) (p : Product) (i : Nat) :
    (db.saveProduct p).member? i = db.member? i := rfl

@[simp] theorem memberByPhone?_saveTxn (db : DB) (t : Txn) (ph : String) :
    (db.saveTxn t).memberByPhone? ph = db.memberByPhone? ph := rfl

@[simp] theorem memberByPhone?_addTxn (db : DB) (t : Txn) (ph : String) :
    (db.addTxn t).memberByPhone? ph = db.memberByPhone? ph := rfl

@[simp] theorem memberByPhone?_addItem (db : DB) (it : TxnItem) (ph : String) :
    (db.addItem it).memberByPhone? ph = db.memberByPhone? ph := rfl

@[simp] theorem memberByPhone?_addBalanceTxn (db : DB) (b : BalanceTxn) (ph : String) :
    (db.addBalanceTxn b).memberByPhone? ph = db.memberByPhone? ph := rfl

@[simp] theorem memberByPhone?_addStockTxn (db : DB) (s : StockTxn) (ph : String) :
    (db.addStockTxn s).memberByPhone? ph = db.memberByPhone? ph := rfl

@[simp] theorem memberByPhone?_saveProduct (db : DB) (p : Product) (ph : String) :
    (db.saveProduct p).memberByPhone? ph = db.memberByPhone? ph := rfl

@[simp] theorem members_saveTxn (db : DB) (t : Txn) : (db.saveTxn t).members = db.members := rfl

@[simp] theorem members_addTxn (db : DB) (t : Txn) : (db.addTxn t).members = db.members := rfl

@[simp] theorem members_addItem (db : DB) (it : TxnItem) :
    (db.addItem it).members = db.members := rfl

@[simp] theorem members_addBalanceTxn (db : DB) (b : BalanceTxn) :
    (db.addBalanceTxn b).members = db.members := rfl

@[simp] theorem members_addStockTxn (db : DB) (s : StockTxn) :
    (db.addStockTxn s).members = db.members := rfl

@[simp] theorem members_saveProduct (db : DB) (p : Product) :
    (db.saveProduct p).members = db.members := rfl

@[simp] theorem product?_saveTxn (db : DB) (t : Txn) (i : Nat) :
    (db.saveTxn t).product? i = db.product? i := rfl

@[simp] theorem product?_addTxn (db : DB) (t : Txn) (i : Nat) :
    (db.addTxn t).product? i = db.product? i := rfl

@[simp] theorem product?_addItem (db : DB) (it : TxnItem) (i : Nat) :
    (db.addItem it).product? i = db.product? i := rfl

@[simp] theorem product?_addBalanceTxn (db : DB) (b : BalanceTxn) (i : Nat) :
    (db.addBalanceTxn b).product? i = db.product? i := rfl

@[simp] theorem product?_addStockTxn (db : DB) (s : StockTxn) (i : Nat) :
    (db.addStockTxn s).product? i = db.product? i := rfl

@[simp] theorem product?_saveMember (db : DB) (m : Member) (i : Nat) :
    (db.saveMember m).product? i = db.product? i := rfl

@[simp] theorem product?_addMember (db : DB) (m : Member) (i : Nat) :
    (db.addMember m).product? i = db.product? i := rfl

@[simp] theorem products_saveTxn (db : DB) (t : Txn) : (db.saveTxn t).products = db.products := rfl

@[simp] theorem products_addTxn (db : DB) (t : Txn) : (db.addTxn t).products = db.products := rfl

@[simp] theorem products_addItem (db : DB) (it : TxnItem) :
    (db.addItem it).products = db.products := rfl

@[simp] theorem products_addBalanceTxn (db : DB) (b : BalanceTxn) :
    (db.addBalanceTxn b).products = db.products := rfl

@[simp] theorem products_addStockTxn (db : DB) (s : StockTxn) :
    (db.addStockTxn s).products = db.products := rfl

@[simp] theorem products_saveMember (db : DB) (m : Member) :
    (db.saveMember m).products = db.products := rfl

@[simp] theorem products_addMember (db : DB) (m : Member) :
    (db.addMember m).products = db.products := rfl

@[simp] theorem transactions_saveMember (db : DB) (m : Member) :
    (db.saveMember m).transactions = db.transactions := rfl

@[simp] theorem transactions_addMember (db : DB) (m : Member) :
    (db.addMember m).transactions = db.transactions := rfl

@[simp] theorem transactions_saveProduct (db : DB) (p : Product) :
    (db.saveProduct p).transactions = db.transactions := rfl

@[simp] theorem transactions_addItem (db : DB) (it : TxnItem) :
    (db.addItem it).transactions = db.transactions := rfl

@[simp] theorem transactions_addBalanceTxn (db : DB) (b : BalanceTxn) :
    (db.addBalanceTxn b).transactions = db.transactions := rfl

@[simp] theorem transactions_addStockTxn (db : DB) (s : StockTxn) :
    (db.addStockTxn s).transactions = db.transactions := rfl

@[simp] theorem balance_txns_saveMember (db : DB) (m : Member) :
    (db.saveMember m).balance_txns = db.balance_txns := rfl

@[simp] theorem balance_txns_addMember (db : DB) (m : Member) :
    (db.addMember m).balance_txns = db.balance_txns := rfl

@[simp] theorem balance_txns_saveProduct (db : DB) (p : Product) :
    (db.saveProduct p).balance_txns = db.balance_txns := rfl

@[simp] theorem balance_txns_saveTxn (db : DB) (t : Txn) :
    (db.saveTxn t).balance_txns = db.balance_txns := rfl

@[simp] theorem balance_txns_addTxn (db : DB) (t : Txn) :
    (db.addTxn t).balance_txns = db.balance_txns := rfl

@[simp] theorem balance_txns_addItem (db : DB) (it : TxnItem) :
    (db.addItem it).balance_txns = db.balance_txns := rfl

@[simp] theorem balance_txns_addStockTxn (db : DB) (s : StockTxn) :
    (db.addStockTxn s).balance_txns = db.balance_txns := rfl

@[simp] theorem balance_txns_addBalanceTxn (db : DB) (b : BalanceTxn) :
    (db.addBalanceTxn b).balance_txns = db.balance_txns ++ [b] := rfl

@[simp] theorem stock_txns_saveMember (db : DB) (m : Member) :
    (db.saveMember m).stock_txns = db.stock_txns := rfl

@[simp] theorem stock_txns_addMember (db : DB) (m : Member) :
    (db.addMember m).stock_txns = db.stock_txns := rfl

@[simp] theorem stock_txns_saveProduct (db : DB) (p : Product) :
    (db.saveProduct p).stock_txns = db.stock_txns := rfl

@[simp] theorem stock_txns_saveTxn (db : DB) (t : Txn) :
    (db.saveTxn t).stock_txns = db.stock_txns := rfl

@[simp] theorem stock_txns_addBalanceTxn (db : DB) (b : BalanceTxn) :
    (db.addBalanceTxn b).stock_txns = db.stock_txns := rfl

theorem member?_isSome_of_id_mem (db : DB) (i : Nat)
    (h : i ∈ db.members.map Member.id) : (db.member? i).isSome := by
  rcases List.mem_map.mp h with ⟨x, hx, hid⟩
  exact List.find?_isSome.mpr ⟨x, hx, by simp [hid]⟩

theorem calculate_patronage_some (db : DB) (t : Txn) (m : Member) (rate : Nat)
    (hr : rate = m.patronage_rate.getD defaultPatronageRate)
    (hfound : db.member? m.id = some m) :
    calculate_patronage db t (some m)
      = (patronageTxn t rate,
         (db.saveTxn (patronageTxn t rate)).saveMember
           { m with total_patronage := m.total_patronage + ((t.subtotal * rate : Nat) : Int) }) := by
  subst hr
  simp [calculate_patronage, patronageTxn, hfound]

theorem calculate_patronage_none (db : DB) (t : Txn) :
    calculate_patronage db t none
      = (patronageTxn t defaultPatronageRate,
         db.saveTxn (patronageTxn t defaultPatronageRate)) := by
  simp [calculate_patronage, patronageTxn]

theorem creditSysAccount_spec (db : DB) (amount : Int) (note : String) (sys : Member)
    (hsys : db.memberByPhone? sysAccountPhone = some sys) :
    creditSysAccount db amount note
      = (db.saveMember { sys with balance := sys.balance + amount }).addBalanceTxn
          { member_id := sys.id, transaction_type := "deposit", amount := amount,
            balance_before := sys.balance, balance_after := sys.balance + amount,
            utang_before := 0, utang_after := 0, notes := note } := by
  simp [creditSysAccount, hsys]

theorem txnFind_isSome_saveTxn (db : DB) (t : Txn) (i : Nat) (hid : t.id = i)
    (h : (db.transactions.find? (fun x => x.id = i)).isSome) :
    ((db.saveTxn t).transactions.find? (fun x => x.id = i)).isSome := by
  subst hid
  rw [txnFind_saveTxn_self db t h]
  simp

theorem feeState_member_spec (db2 : DB) (t0 : Txn) (m : Member) (inp : PayInput) (sys : Member)
    (fee : Int) (hfee : fee = 50 * (cartUnits inp.items : Int))
    (hnd : (db2.members.map Member.id).Nodup)
    (hsys : db2.memberByPhone? sysAccountPhone = some sys)
    (hmem : m ∈ db2.members)
    (hne : m.id ≠ sys.id)
    (hu : 0 < cartUnits inp.items)
    (htn : (db2.transactions.find? (fun x => x.id = t0.id)).isSome) :
    (feeState db2 t0 (some m) inp).2.memberByPhone? sysAccountPhone
        = some { sys with balance := sys.balance + fee }
    ∧ (feeState db2 t0 (some m) inp).2.balanceOf? sys.id = some (sys.balance + fee)
    ∧ (∃ mf, (feeState db2 t0 (some m) inp).2.member? m.id = some mf
        ∧ mf.id = m.id ∧ mf.balance = m.balance - fee
        ∧ mf.utang_balance = m.utang_balance
        ∧ mf.phone = m.phone ∧ mf.is_active = m.is_active)
    ∧ (∃ r1 r2, (feeState db2 t0 (some m) inp).2.balance_txns = db2.balance_txns ++ [r1, r2]
        ∧ r1.member_id = sys.id ∧ r1.transaction_type = "deposit" ∧ r1.amount = fee
        ∧ r1.notes = "Product fee"
        ∧ r2.member_id = m.id ∧ r2.transaction_type = "deduction" ∧ r2.amount = fee
        ∧ r2.notes = "Product fee")
    ∧ (feeState db2 t0 (some m) inp).2.members.map Member.id = db2.members.map Member.id
    ∧ (((feeState db2 t0 (some m) inp).2.transactions.find? (fun x => x.id = t0.id)).isSome)
    ∧ (feeState db2 t0 (some m) inp).1
        = patronageTxn (calculate_totals db2 t0) (m.patronage_rate.getD defaultPatronageRate) := by
  subst hfee
  have hm0 : db2.member? m.id = some m := member?_of_mem_nodup db2 m hnd hmem
  have hsysmem : sys ∈ db2.members := (memberByPhone?_spec db2 _ sys hsys).1
  have hsys0 : db2.member? sys.id = some sys := member?_of_mem_nodup db2 sys hnd hsysmem
  have hpat := calculate_patronage_some (db2.saveTxn (calculate_totals db2 t0))
    (calculate_totals db2 t0) m (m.patronage_rate.getD defaultPatronageRate) rfl
    (by simpa using hm0)
  have hfs : feeState db2 t0 (some m) inp
      = (patronageTxn (calculate_totals db2 t0) (m.patronage_rate.getD defaultPatronageRate),
         productFeeStage
           (((db2.saveTxn (calculate_totals db2 t0)).saveTxn
               (patronageTxn (calculate_totals db2 t0)
                 (m.patronage_rate.getD defaultPatronageRate))).saveMember
             { m with total_patronage := m.total_patronage
                 + (((calculate_totals db2 t0).subtotal
                     * (m.patronage_rate.getD defaultPatronageRate) : Nat) : Int) })
           (some m.id) (cartUnits inp.items)) := by
    simp only [feeState]
    rw [hpat]
    simp
  set F : Int := 50 * (cartUnits inp.items : Int) with hF
  set t1 := calculate_totals db2 t0 with ht1
  set rate := m.patronage_rate.getD defaultPatronageRate with hrate
  set t2 := patronageTxn t1 rate with ht2
  set mm : Member := { m with total_patronage := m.total_patronage + ((t1.subtotal * rate : Nat) : Int) }
    with hmm
  set db4 := ((db2.saveTxn t1).saveTxn t2).saveMember mm with hdb4
  have hmmid : mm.id = m.id := rfl
  have ht1id : t1.id = t0.id := rfl
  have ht2id : t2.id = t0.id := rfl
  have hids4 : db4.members.map Member.id = db2.members.map Member.id := by
    rw [hdb4, saveMember_ids]
    simp
  have hnd4 : (db4.members.map Member.id).Nodup := by rw [hids4]; exact hnd
  have hdb4_m : db4.member? m.id = some mm := by
    rw [hdb4, show m.id = mm.id from rfl]
    apply member?_saveMember_self
    simp [hm0, hmmid]
  have hdb4_sys : db4.member? sys.id = some sys := by
    rw [hdb4, member?_saveMember_ne _ mm sys.id (by rw [hmmid]; exact fun hc => hne hc.symm)]
    simpa using hsys0
  have hdb4_phone : db4.memberByPhone? sysAccountPhone = some sys := by
    rw [hdb4, memberByPhone?_saveMember _ mm m sysAccountPhone (by simpa using hnd)
      (by simpa [hmmid] using hm0) rfl rfl]
    have : ((db2.saveTxn t1).saveTxn t2).memberByPhone? sysAccountPhone = some sys := by
      simpa using hsys
    rw [this]
    have : ¬ sys.id = mm.id := by rw [hmmid]; exact fun hc => hne hc.symm
    simp [this]
  have hdb4_btxns : db4.balance_txns = db2.balance_txns := by rw [hdb4]; simp
  have hdb4_tf : (db4.transactions.find? (fun x => x.id = t0.id)).isSome := by
    rw [hdb4]
    simp only [transactions_saveMember]
    exact txnFind_isSome_saveTxn _ t2 t0.id ht2id
      (txnFind_isSome_saveTxn _ t1 t0.id ht1id htn)
  have hFpos : (0 : Int) < F := by
    rw [hF]
    have : (0 : Int) < (cartUnits inp.items : Int) := by exact_mod_cast hu
    omega
  have hcs := creditSysAccount_spec db4 F "Product fee" sys hdb4_phone
  set sys' : Member := { sys with balance := sys.balance + F } with hsys'
  set r1 : BalanceTxn :=
    { member_id := sys.id, transaction_type := "deposit", amount := F,
      balance_before := sys.balance, balance_after := sys.balance + F,
      utang_before := 0, utang_after := 0, notes := "Product fee" } with hr1
  have hsys'id : sys'.id = sys.id := rfl
  have hcs_m : (creditSysAccount db4 F "Product fee").member? m.id = some mm := by
    rw [hcs]
    simp only [member?_addBalanceTxn]
    rw [member?_saveMember_ne _ sys' m.id (by rw [hsys'id]; exact hne)]
    exact hdb4_m
  set m2 : Member := { mm with balance := mm.balance - F } with hm2
  have hm2id : m2.id = m.id := rfl
  set r2 : BalanceTxn :=
    { member_id := m.id, transaction_type := "deduction", amount := F,
      balance_before := mm.balance, balance_after := mm.balance - F,
      utang_before := 0, utang_after := 0, notes := "Product fee" } with hr2
  have hpfs : productFeeStage db4 (some m.id) (cartUnits inp.items)
      = ((creditSysAccount db4 F "Product fee").saveMember m2).addBalanceTxn r2 := by
    simp only [productFeeStage]
    rw [if_pos (by rw [← hF] at *; exact hFpos)]
    rw [hcs_m]
  set dbA := (db4.saveMember sys').addBalanceTxn r1 with hdbA
  have hidsA : dbA.members.map Member.id = db2.members.map Member.id := by
    rw [hdbA]
    simp only [members_addBalanceTxn]
    rw [saveMember_ids]
    exact hids4
  have hndA : (dbA.members.map Member.id).Nodup := by rw [hidsA]; exact hnd
  have hdbA_m : dbA.member? m.id = some mm := by
    rw [hdbA]
    simp only [member?_addBalanceTxn]
    rw [member?_saveMember_ne _ sys' m.id (by rw [hsys'id]; exact hne)]
    exact hdb4_m
  have hdbA_sys : dbA.member? sys.id = some sys' := by
    rw [hdbA]
    simp only [member?_addBalanceTxn]
    rw [show sys.id = sys'.id from rfl]
    apply member?_saveMember_self
    rw [hsys'id]
    simp [hdb4_sys]
  have hdbA_phone : dbA.memberByPhone? sysAccountPhone = some sys' := by
    rw [hdbA]
    simp only [memberByPhone?_addBalanceTxn]
    rw [memberByPhone?_saveMember db4 sys' sys sysAccountPhone hnd4
      (by rw [hsys'id]; exact hdb4_sys) rfl rfl]
    rw [hdb4_phone]
    simp [hsys'id]
  set db5 := (dbA.saveMember m2).addBalanceTxn r2 with hdb5
  have hfinal : (feeState db2 t0 (some m) inp).2 = db5 := by
    rw [hfs]
    show productFeeStage db4 (some m.id) (cartUnits inp.items) = db5
    rw [hpfs, hdb5, hdbA, hcs]
  refine ⟨?_, ?_, ?_, ?_, ?_, ?_, ?_⟩
  · rw [hfinal, hdb5]
    simp only [memberByPhone?_addBalanceTxn]
    rw [memberByPhone?_saveMember dbA m2 mm sysAccountPhone hndA
      (by rw [show m2.id = mm.id from rfl] at *; simpa [hmmid] using hdbA_m) rfl rfl]
    rw [hdbA_phone]
    have : ¬ sys'.id = m2.id := by rw [hsys'id, hm2id]; exact fun hc => hne hc.symm
    simp [this, hsys']
  · rw [hfinal, hdb5]
    simp only [DB.balanceOf?]
    simp only [member?_addBalanceTxn]
    rw [member?_saveMember_ne _ m2 sys.id (by rw [hm2id]; exact fun hc => hne hc.symm)]
    rw [hdbA_sys]
    simp [hsys']
  · refine ⟨m2, ?_, ?_, ?_, ?_, ?_, ?_⟩
    · rw [hfinal, hdb5]
      simp only [member?_addBalanceTxn]
      rw [show m.id = m2.id from rfl]
      apply member?_saveMember_self
      rw [show m2.id = m.id from rfl]
      simp [hdbA_m]
    · rfl
    · rfl
    · rfl
    · rfl
    · rfl
  · refine ⟨r1, r2, ?_, rfl, rfl, rfl, rfl, rfl, rfl, rfl, rfl⟩
    rw [hfinal, hdb5, hdbA]
    simp [hdb4_btxns]
  · rw [hfinal, hdb5]
    simp only [members_addBalanceTxn]
    rw [saveMember_ids]
    exact hidsA
  · rw [hfinal, hdb5]
    simp only [transactions_addBalanceTxn]
    have h1 : dbA.transactions = db4.transactions := by rw [hdbA]; simp
    show ((dbA.saveMember m2).transactions.find? (fun x => x.id = t0.id)).isSome
    simp only [transactions_saveMember, h1]
    exact hdb4_tf
  · rw [hfs]

theorem feeState_none_spec (db2 : DB) (t0 : Txn) (inp : PayInput) (sys : Member)
    (fee : Int) (hfee : fee = 50 * (cartUnits inp.items : Int))
    (hnd : (db2.members.map Member.id).Nodup)
    (hsys : db2.memberByPhone? sysAccountPhone = some sys)
    (hu : 0 < cartUnits inp.items)
    (htn : (db2.transactions.find? (fun x => x.id = t0.id)).isSome) :
    (feeState db2 t0 none inp).2.memberByPhone? sysAccountPhone
        = some { sys with balance := sys.balance + fee }
    ∧ (feeState db2 t0 none inp).2.balanceOf? sys.id = some (sys.balance + fee)
    ∧ (∃ r1, (feeState db2 t0 none inp).2.balance_txns = db2.balance_txns ++ [r1]
        ∧ r1.member_id = sys.id ∧ r1.transaction_type = "deposit" ∧ r1.amount = fee
        ∧ r1.notes = "Product fee")
    ∧ (feeState db2 t0 none inp).2.members.map Member.id = db2.members.map Member.id
    ∧ (((feeState db2 t0 none inp).2.transactions.find? (fun x => x.id = t0.id)).isSome)
    ∧ (feeState db2 t0 none inp).1 = patronageTxn (calculate_totals db2 t0) defaultPatronageRate := by
  subst hfee
  have hsysmem : sys ∈ db2.members := (memberByPhone?_spec db2 _ sys hsys).1
  have hsys0 : db2.member? sys.id = some sys := member?_of_mem_nodup db2 sys hnd hsysmem
  have hfs : feeState db2 t0 none inp
      = (patronageTxn (calculate_totals db2 t0) defaultPatronageRate,
         productFeeStage
           ((db2.saveTxn (calculate_totals db2 t0)).saveTxn
             (patronageTxn (calculate_totals db2 t0) defaultPatronageRate))
           none (cartUnits inp.items)) := by
    simp only [feeState]
    rw [calculate_patronage_none]
    simp
  set F : Int := 50 * (cartUnits inp.items : Int) with hF
  set t1 := calculate_totals db2 t0 with ht1
  set t2 := patronageTxn t1 defaultPatronageRate with ht2
  set db4 := (db2.saveTxn t1).saveTxn t2 with hdb4
  have ht1id : t1.id = t0.id := rfl
  have ht2id : t2.id = t0.id := rfl
  have hdb4_phone : db4.memberByPhone? sysAccountPhone = some sys := by
    rw [hdb4]; simpa using hsys
  have hdb4_sys : db4.member? sys.id = some sys := by rw [hdb4]; simpa using hsys0
  have hFpos : (0 : Int) < F := by
    rw [hF]
    have : (0 : Int) < (cartUnits inp.items : Int) := by exact_mod_cast hu
    omega
  have hcs := creditSysAccount_spec db4 F "Product fee" sys hdb4_phone
  set sys' : Member := { sys with balance := sys.balance + F } with hsys'
  set r1 : BalanceTxn :=
    { member_id := sys.id, transaction_type := "deposit", amount := F,
      balance_before := sys.balance, balance_after := sys.balance + F,
      utang_before := 0, utang_after := 0, notes := "Product fee" } with hr1
  have hpfs : productFeeStage db4 none (cartUnits inp.items)
      = (db4.saveMember sys').addBalanceTxn r1 := by
    simp only [productFeeStage]
    rw [if_pos (by rw [← hF] at *; exact hFpos)]
    rw [hcs]
  have hfinal : (feeState db2 t0 none inp).2 = (db4.saveMember sys').addBalanceTxn r1 := by
    rw [hfs]
    show productFeeStage db4 none (cartUnits inp.items) = _
    rw [hpfs]
  refine ⟨?_, ?_, ?_, ?_, ?_, ?_⟩
  · rw [hfinal]
    simp only [memberByPhone?_addBalanceTxn]
    rw [memberByPhone?_saveMember db4 sys' sys sysAccountPhone (by rw [hdb4]; simpa using hnd)
      (by rw [show sys'.id = sys.id from rfl]; exact hdb4_sys) rfl rfl]
    rw [hdb4_phone]
    simp [show sys'.id = sys.id from rfl]
  · rw [hfinal]
    simp only [DB.balanceOf?, member?_addBalanceTxn]
    rw [show sys.id = sys'.id from rfl]
    rw [member?_saveMember_self db4 sys' (by rw [show sys'.id = sys.id from rfl]; simp [hdb4_sys])]
    simp [hsys']
  · refine ⟨r1, ?_, rfl, rfl, rfl, rfl⟩
    rw [hfinal]
    simp [hdb4]
  · rw [hfinal]
    simp only [members_addBalanceTxn]
    rw [saveMember_ids]
    rw [hdb4]
    simp
  · rw [hfinal]
    simp only [transactions_addBalanceTxn, transactions_saveMember, hdb4]
    exact txnFind_isSome_saveTxn _ t2 t0.id ht2id
      (txnFind_isSome_saveTxn _ t1 t0.id ht1id htn)
  · rw [hfs]

/-! Inversion lemmas: what a successful run tells us about the branch taken. -/

theorem resolveMember_ok_mem (db : DB) (inp : PayInput) (m : Member)
    (h : resolveMember db inp = .ok (some m)) :
    m ∈ db.members ∧ m.is_active = true := by
  unfold resolveMember at h
  split at h
  · split at h
    · simp at h
    · split at h
      · simp at h
      · rename_i mem hact
        have hspec := activeMember?_spec db _ mem hact
        split at h
        · split at h
          · simp at h
          · split at h
            · have : mem = m := by simpa using h
              subst this
              exact ⟨hspec.1, hspec.2.2⟩
            · simp at h
        · have : mem = m := by simpa using h
          subst this
          exact ⟨hspec.1, hspec.2.2⟩
  · split at h
    · simp at h
    · have hb : inp.auth_user_member.bind (fun mid => db.activeMember? mid) = some m := by
        simpa using h
      rcases Option.bind_eq_some.mp hb with ⟨mid, _, hact⟩
      have hspec := activeMember?_spec db mid m hact
      exact ⟨hspec.1, hspec.2.2⟩

theorem resolveMember_method_member (db : DB) (inp : PayInput) (mo : Option Member)
    (h : resolveMember db inp = .ok mo)
    (hm : inp.payment_method = "debit" ∨ inp.payment_method = "credit") :
    ∃ m, mo = some m := by
  unfold resolveMember at h
  split at h
  · split at h
    · simp at h
    · split at h
      · simp at h
      · rename_i mem hact
        split at h
        · split at h
          · simp at h
          · split at h
            · exact ⟨mem, by simpa using h.symm⟩
            · simp at h
        · exact ⟨mem, by simpa using h.symm⟩
  · split at h
    · simp at h
    · rename_i hcond
      exfalso
      apply hcond
      rcases hm with h1 | h1 <;> simp [h1]

theorem process_payment_eq_of (db : DB) (inp : PayInput) (member : Option Member) (db2 : DB)
    (h1 : inp.items.isEmpty = false)
    (h2 : (inp.payment_method = "debit" || inp.payment_method = "credit"
           || inp.payment_method = "cash") = true)
    (hres : resolveMember db inp = .ok member)
    (hval : validateItems inp.items = none)
    (hpre : precheck db inp.items = none)
    (hsell : sellLoop (initTxn db inp member).id (db.addTxn (initTxn db inp member)) inp.items
      = (db2, none)) :
    process_payment db inp = settleAfterSell db2 (initTxn db inp member) member inp := by
  unfold process_payment
  rw [if_neg (by simp [h1])]
  rw [if_neg (by simp [h2])]
  rw [hres, hval, hpre]
  simp [hsell]

theorem process_payment_ok_inv (db : DB) (inp : PayInput) (tid : Nat)
    (h : (process_payment db inp).1 = .ok tid) :
    ∃ member db2,
      resolveMember db inp = .ok member ∧
      validateItems inp.items = none ∧
      precheck db inp.items = none ∧
      inp.items.isEmpty = false ∧
      sellLoop (initTxn db inp member).id (db.addTxn (initTxn db inp member)) inp.items
        = (db2, none) ∧
      process_payment db inp = settleAfterSell db2 (initTxn db inp member) member inp := by
  unfold process_payment at h
  split at h
  · simp at h
  · rename_i hempty
    split at h
    · simp at h
    · rename_i hmethod
      split at h
      · simp at h
      · rename_i member hres
        split at h
        · simp at h
        · rename_i hval
          split at h
          · simp at h
          · rename_i hpre
            dsimp only [] at h
            split at h
            · simp at h
            · rename_i db2 hsell
              have h1 : inp.items.isEmpty = false := by
                revert hempty
                cases inp.items.isEmpty <;> simp
              have h2 : (inp.payment_method = "debit" || inp.payment_method = "credit"
                  || inp.payment_method = "cash") = true := by
                revert hmethod
                cases hb : (inp.payment_method = "debit" || inp.payment_method = "credit"
                  || inp.payment_method = "cash") <;> simp
              exact ⟨member, db2, hres, hval, hpre, h1, hsell,
                process_payment_eq_of db inp member db2 h1 h2 hres hval hpre hsell⟩

theorem settleAfterSell_ok_inv (db2 : DB) (t0 : Txn) (member : Option Member)
    (inp : PayInput) (tid : Nat)
    (h : (settleAfterSell db2 t0 member inp).1 = .ok tid) :
    tid = t0.id ∧ ∃ t3 db6,
      waterfall (feeState db2 t0 member inp).2 (feeState db2 t0 member inp).1
          (member.map Member.id) inp.payment_method inp.cash_amount
        = (none, t3, db6) ∧
      (settleAfterSell db2 t0 member inp).2 = db6.saveTxn t3 := by
  unfold settleAfterSell at h ⊢
  dsimp only [] at h ⊢
  rcases hw : waterfall (feeState db2 t0 member inp).2 (feeState db2 t0 member inp).1
      (member.map Member.id) inp.payment_method inp.cash_amount with ⟨e?, t3, db6⟩
  rw [hw] at h
  cases e? with
  | some e => simp at h
  | none =>
    have : t0.id = tid := by simpa using h
    exact ⟨this.symm, t3, db6, rfl, rfl⟩

theorem api_process_refund_ok_inv (db : DB) (inp : RefundInput) (tid : Nat)
    (h : (api_process_refund db inp).1 = .ok tid) :
    ∃ t, refundEligible db inp = .ok t ∧ t.id = tid ∧
      (api_process_refund db inp).2 = applyOps (refundOps db t inp.reason) db := by
  unfold api_process_refund at h ⊢
  cases he : refundEligible db inp with
  | error e => rw [he] at h; simp at h
  | ok t =>
    rw [he] at h
    exact ⟨t, rfl, by simpa using h, rfl⟩

theorem refundEligible_spec (db : DB) (inp : RefundInput) (t : Txn)
    (h : refundEligible db inp = .ok t) :
    ∃ tid, inp.transaction_id = some tid ∧
      db.transactions.find? (fun x => x.id = tid && x.status = "completed") = some t ∧
      t.id = tid ∧ t.status = "completed" := by
  unfold refundEligible at h
  split at h
  · simp at h
  · rename_i tid0 hid
    split at h
    · simp at h
    · rename_i t' hf
      have hts := List.find?_some hf
      simp only [Bool.and_eq_true, decide_eq_true_eq] at hts
      have ht' : t' = t := by
        split at h
        · simpa using h
        · split at h
          · simp at h
          · split at h
            · simpa using h
            · simp at h
      subst ht'
      exact ⟨tid0, hid, hf, hts.1, hts.2⟩

/-! Lemmas about the refund write sequence. -/

theorem applyOps_append (a b : List (DB → DB)) (db : DB) :
    applyOps (a ++ b) db = applyOps b (applyOps a db) := by
  simp [applyOps, List.foldl_append]

theorem applyOps_proj {α : Type} (proj : DB → α) (ops : List (DB → DB))
    (h : ∀ f ∈ ops, ∀ d, proj (f d) = proj d) :
    ∀ db : DB, proj (applyOps ops db) = proj db := by
  induction ops with
  | nil => intro db; rfl
  | cons f fs ih =>
    intro db
    have h1 : applyOps (f :: fs) db = applyOps fs (f db) := by
      simp [applyOps]
    rw [h1, ih (fun g hg d => h g (List.mem_cons_of_mem f hg) d) (f db),
      h f (List.mem_cons_self f fs) db]

theorem creditOp_products (mid : Nat) (a : Int) (db : DB) :
    (creditOp mid a db).products = db.products := by
  unfold creditOp
  split <;> simp

theorem creditOp_transactions (mid : Nat) (a : Int) (db : DB) :
    (creditOp mid a db).transactions = db.transactions := by
  unfold creditOp
  split <;> simp

theorem creditOp_stock_txns (mid : Nat) (a : Int) (db : DB) :
    (creditOp mid a db).stock_txns = db.stock_txns := by
  unfold creditOp
  split <;> simp

theorem recordOp_members (mid : Nat) (a : Int) (db : DB) :
    (recordOp mid a db).members = db.members := by
  unfold recordOp
  split <;> simp

theorem recordOp_products (mid : Nat) (a : Int) (db : DB) :
    (recordOp mid a db).products = db.products := by
  unfold recordOp
  split <;> simp

theorem recordOp_transactions (mid : Nat) (a : Int) (db : DB) :
    (recordOp mid a db).transactions = db.transactions := by
  unfold recordOp
  split <;> simp

theorem recordOp_stock_txns (mid : Nat) (a : Int) (db : DB) :
    (recordOp mid a db).stock_txns = db.stock_txns := by
  unfold recordOp
  split <;> simp

theorem restockOp_members (pid : Nat) (q : Nat) (db : DB) :
    (restockOp pid q db).members = db.members := by
  unfold restockOp
  split <;> simp

theorem restockOp_transactions (pid : Nat) (q : Nat) (db : DB) :
    (restockOp pid q db).transactions = db.transactions := by
  unfold restockOp
  split <;> simp

theorem restockOp_stock_txns (pid : Nat) (q : Nat) (db : DB) :
    (restockOp pid q db).stock_txns = db.stock_txns := by
  unfold restockOp
  split <;> simp

theorem statusOp_members (tid : Nat) (r : String) (db : DB) :
    (statusOp tid r db).members = db.members := by
  unfold statusOp
  split <;> simp

theorem statusOp_products (tid : Nat) (r : String) (db : DB) :
    (statusOp tid r db).products = db.products := by
  unfold statusOp
  split <;> simp

theorem statusOp_stock_txns (tid : Nat) (r : String) (db : DB) :
    (statusOp tid r db).stock_txns = db.stock_txns := by
  unfold statusOp
  split <;> simp

theorem balanceOf?_eq_of_members (db db' : DB) (h : db'.members = db.members) (mid : Nat) :
    db'.balanceOf? mid = db.balanceOf? mid := by
  simp [DB.balanceOf?, DB.member?, h]

theorem utangOf?_eq_of_members (db db' : DB) (h : db'.members = db.members) (mid : Nat) :
    db'.utangOf? mid = db.utangOf? mid := by
  simp [DB.utangOf?, DB.member?, h]

theorem stockOf?_eq_of_products (db db' : DB) (h : db'.products = db.products) (pid : Nat) :
    db'.stockOf? pid = db.stockOf? pid := by
  simp [DB.stockOf?, DB.product?, h]

theorem balanceOf?_creditOp (mid : Nat) (a : Int) (db : DB) :
    (creditOp mid a db).balanceOf? mid = (db.balanceOf? mid).map (fun b => b + a) := by
  unfold creditOp
  cases hm : db.member? mid with
  | none => simp [DB.balanceOf?, hm]
  | some m =>
    have hmid : m.id = mid := (member?_spec db mid m hm).2
    have hs : (db.member? (m.add_balance a).id).isSome := by
      rw [show (m.add_balance a).id = mid from hmid]
      simp [hm]
    rw [show mid = (m.add_balance a).id from hmid.symm]
    simp only [DB.balanceOf?, member?_saveMember_self db (m.add_balance a) hs]
    rw [show (m.add_balance a).id = mid from hmid]
    simp [hm, Member.add_balance]

theorem utangOf?_creditOp (mid mid' : Nat) (a : Int) (db : DB) :
    (creditOp mid a db).utangOf? mid' = db.utangOf? mid' := by
  unfold creditOp
  cases hm : db.member? mid with
  | none => simp
  | some m =>
    have hmid : m.id = mid := (member?_spec db mid m hm).2
    exact utangOf?_save_pres db m (m.add_balance a) (by rw [show (m.add_balance a).id = m.id from rfl, hmid]; exact hm) rfl mid'

theorem balanceOf?_creditOp_ne (mid mid' : Nat) (a : Int) (db : DB) (hne : mid' ≠ mid) :
    (creditOp mid a db).balanceOf? mid' = db.balanceOf? mid' := by
  unfold creditOp
  cases hm : db.member? mid with
  | none => simp
  | some m =>
    have hmid : m.id = mid := (member?_spec db mid m hm).2
    simp only [DB.balanceOf?]
    rw [member?_saveMember_ne db (m.add_balance a) mid' (by rw [show (m.add_balance a).id = m.id from rfl, hmid]; exact hne)]

theorem stockOf?_restockOp (db : DB) (pid' : Nat) (q : Nat) (pid : Nat) :
    (restockOp pid' q db).stockOf? pid
      = if pid = pid' then (db.stockOf? pid).map (fun s => s + (q : Int))
        else db.stockOf? pid := by
  unfold restockOp
  cases hp : db.product? pid' with
  | none =>
    by_cases hpe : pid = pid'
    · subst hpe; simp [DB.stockOf?, hp]
    · simp [hpe]
  | some p =>
    have hpid : p.id = pid' := (product?_spec db pid' p hp).2
    by_cases hpe : pid = pid'
    · subst hpe
      rw [if_pos rfl]
      have hs : (db.product? ({ p with stock_quantity := p.stock_quantity + (q : Int) } : Product).id).isSome := by
        rw [show ({ p with stock_quantity := p.stock_quantity + (q : Int) } : Product).id = pid from hpid]
        simp [hp]
      rw [show pid = ({ p with stock_quantity := p.stock_quantity + (q : Int) } : Product).id from hpid.symm]
      simp only [DB.stockOf?, product?_saveProduct_self db _ hs]
      rw [show ({ p with stock_quantity := p.stock_quantity + (q : Int) } : Product).id = pid from hpid]
      simp [hp]
    · rw [if_neg hpe]
      simp only [DB.stockOf?]
      rw [product?_saveProduct_ne db _ pid (by rw [show ({ p with stock_quantity := p.stock_quantity + (q : Int) } : Product).id = pid' from hpid]; exact hpe)]

theorem stockOf?_restockFold :
    ∀ (items : List TxnItem) (db : DB) (pid : Nat),
      (applyOps (items.filterMap
          (fun it => it.product_id.map (fun pid' => restockOp pid' it.quantity))) db).stockOf? pid
      = (db.stockOf? pid).map (fun s =>
          s + ((items.filter (fun it => it.product_id = some pid)).map
                (fun it => (it.quantity : Int))).sum) := by
  intro items
  induction items with
  | nil =>
    intro db pid
    cases h : db.stockOf? pid <;> simp [applyOps, h]
  | cons it rest ih =>
    intro db pid
    cases hpid : it.product_id with
    | none =>
      simp only [List.filterMap_cons, hpid, Option.map_none']
      rw [ih db pid]
      simp [List.filter_cons, hpid]
    | some pid' =>
      simp only [List.filterMap_cons, hpid, Option.map_some']
      have happ : applyOps (restockOp pid' it.quantity :: rest.filterMap
          (fun it => it.product_id.map (fun pid2 => restockOp pid2 it.quantity))) db
          = applyOps (rest.filterMap
              (fun it => it.product_id.map (fun pid2 => restockOp pid2 it.quantity)))
              (restockOp pid' it.quantity db) := by
        simp [applyOps]
      rw [happ, ih _ pid, stockOf?_restockOp]
      by_cases hpe : pid = pid'
      · subst hpe
        rw [if_pos rfl]
        have hfil : (it :: rest).filter (fun x => x.product_id = some pid)
            = it :: rest.filter (fun x => x.product_id = some pid) := by
          simp [List.filter_cons, hpid]
        rw [hfil]
        cases h : db.stockOf? pid with
        | none => simp [h]
        | some s => simp [h]; ring
      · rw [if_neg hpe]
        have hfil : (it :: rest).filter (fun x => x.product_id = some pid)
            = rest.filter (fun x => x.product_id = some pid) := by
          simp only [List.filter_cons, hpid]
          have : (some pid' = some pid) = False := by
            simp
            exact fun hc => hpe hc.symm
          simp [this]
        rw [hfil]

theorem statusOf?_statusOp (db : DB) (tid : Nat) (r : String)
    (h : (db.transactions.find? (fun x => x.id = tid)).isSome) :
    (statusOp tid r db).statusOf? tid = some "cancelled" := by
  unfold statusOp
  obtain ⟨t, ht⟩ := Option.isSome_iff_exists.mp h
  rw [ht]
  have hid : t.id = tid := by simpa using List.find?_some ht
  set t' : Txn :=
    { t with
      status := "cancelled",
      notes := if r = "" then "Refunded" else "Refunded. " ++ r } with ht'
  have hid2 : t'.id = tid := hid
  show (db.saveTxn t').statusOf? tid = some "cancelled"
  simp only [DB.statusOf?]
  rw [show tid = t'.id from hid2.symm]
  rw [txnFind_saveTxn_self db t' (by rw [hid2]; simp [ht])]
  rfl

theorem statusOf?_eq_of_transactions (db db' : DB) (h : db'.transactions = db.transactions)
    (tid : Nat) : db'.statusOf? tid = db.statusOf? tid := by
  simp [DB.statusOf?, h]

/-! Products are only mutated by the sell loop: every later settlement stage
leaves the products table unchanged. -/

theorem calculate_patronage_products (db : DB) (t : Txn) (mo : Option Member) :
    (calculate_patronage db t mo).2.products = db.products := by
  cases mo with
  | none => simp [calculate_patronage]
  | some m =>
    simp only [calculate_patronage]
    split <;> simp

theorem creditSysAccount_products (db : DB) (a : Int) (n : String) :
    (creditSysAccount db a n).products = db.products := by
  unfold creditSysAccount
  dsimp only []
  split <;> simp

theorem productFeeStage_products (db : DB) (mo : Option Nat) (units : Nat) :
    (productFeeStage db mo units).products = db.products := by
  cases mo with
  | none =>
    simp only [productFeeStage]
    split
    · simp [creditSysAccount_products]
    · rfl
  | some mid =>
    simp only [productFeeStage]
    split
    · split <;> simp [creditSysAccount_products]
    · rfl

theorem waterfall_products (db : DB) (t : Txn) (mo : Option Nat) (meth : String)
    (cash : Option Int) : (waterfall db t mo meth cash).2.2.products = db.products := by
  unfold waterfall
  repeat' split
  all_goals simp [creditSysAccount_products]

theorem feeState_products (db2 : DB) (t0 : Txn) (mo : Option Member) (inp : PayInput) :
    (feeState db2 t0 mo inp).2.products = db2.products := by
  simp only [feeState]
  rw [productFeeStage_products, calculate_patronage_products]
  simp

theorem settleAfterSell_products (db2 : DB) (t0 : Txn) (mo : Option Member) (inp : PayInput) :
    (settleAfterSell db2 t0 mo inp).2.products = db2.products := by
  unfold settleAfterSell
  dsimp only []
  rcases hw : waterfall (feeState db2 t0 mo inp).2 (feeState db2 t0 mo inp).1
      (mo.map Member.id) inp.payment_method inp.cash_amount with ⟨e?, t3, db6⟩
  have hp : db6.products = db2.products := by
    have h2 := waterfall_products (feeState db2 t0 mo inp).2 (feeState db2 t0 mo inp).1
      (mo.map Member.id) inp.payment_method inp.cash_amount
    rw [hw] at h2
    simpa [feeState_products] using h2
  cases e? <;> simp [hp]

/-- C9: settlement never drives any stock negative.  If every product row has
non-negative stock before a `process_payment` call, every product row has
non-negative stock after it, whether the call succeeds or fails: the loop
decrements a locked row only after re-checking `stock_quantity >= quantity` on
that row. -/
theorem c9_no_negative_stock (db : DB) (inp : PayInput)
    (h : ∀ p ∈ db.products, 0 ≤ p.stock_quantity) :
    ∀ q ∈ (process_payment db inp).2.products, 0 ≤ q.stock_quantity := by
  unfold process_payment
  split
  · simpa using h
  · split
    · simpa using h
    · split
      · simpa using h
      · rename_i member hres
        split
        · simpa using h
        · split
          · simpa using h
          · dsimp only []
            split
            · rename_i db2 e hsell
              intro q hq
              have hnn := sellLoop_stock_nonneg (initTxn db inp member).id inp.items
                (db.addTxn (initTxn db inp member)) (by simpa using h)
              rw [hsell] at hnn
              exact hnn q (by simpa using hq)
            · rename_i db2 hsell
              intro q hq
              rw [settleAfterSell_products] at hq
              have hnn := sellLoop_stock_nonneg (initTxn db inp member).id inp.items
                (db.addTxn (initTxn db inp member)) (by simpa using h)
              rw [hsell] at hnn
              exact hnn q hq

theorem restockFold_members (items : List TxnItem) (db : DB) :
    (applyOps (items.filterMap
      (fun it => it.product_id.map (fun pid => restockOp pid it.quantity))) db).members
    = db.members := by
  apply applyOps_proj
  intro f hf d
  rcases List.mem_filterMap.mp hf with ⟨it, _, hmap⟩
  rcases Option.map_eq_some'.mp hmap with ⟨pid, _, rfl⟩
  exact restockOp_members pid it.quantity d

theorem restockFold_transactions (items : List TxnItem) (db : DB) :
    (applyOps (items.filterMap
      (fun it => it.product_id.map (fun pid => restockOp pid it.quantity))) db).transactions
    = db.transactions := by
  apply applyOps_proj
  intro f hf d
  rcases List.mem_filterMap.mp hf with ⟨it, _, hmap⟩
  rcases Option.map_eq_some'.mp hmap with ⟨pid, _, rfl⟩
  exact restockOp_transactions pid it.quantity d

theorem refundOps_stock_txns_pres (db : DB) (t : Txn) (r : String) :
    ∀ f ∈ refundOps db t r, ∀ d, (f d).stock_txns = d.stock_txns := by
  intro f hf d
  unfold refundOps at hf
  rcases List.mem_append.mp hf with h1 | h2
  · rcases List.mem_append.mp h1 with ha | hb
    · cases hmid : t.member_id with
      | none => rw [hmid] at ha; simp at ha
      | some mid =>
        rw [hmid] at ha
        rcases List.mem_cons.mp ha with rfl | ha2
        · exact creditOp_stock_txns mid _ d
        · rcases List.mem_cons.mp ha2 with rfl | ha3
          · exact recordOp_stock_txns mid _ d
          · simp at ha3
    · rcases List.mem_filterMap.mp hb with ⟨it, _, hmap⟩
      rcases Option.map_eq_some'.mp hmap with ⟨pid, _, rfl⟩
      exact restockOp_stock_txns pid it.quantity d
  · rcases List.mem_singleton.mp h2 with rfl
    exact statusOp_stock_txns t.id r d

/-- C8: a refund of a completed member-owned transaction credits the member's
balance with exactly the transaction total, leaves the utang balance
untouched, and sets the transaction status to cancelled — regardless of the
original payment method. -/
theorem c8_refund_credits_balance (db : DB) (inp : RefundInput) (t : Txn) (mid : Nat)
    (b u : Int)
    (helig : refundEligible db inp = .ok t)
    (hmid : t.member_id = some mid)
    (hb : db.balanceOf? mid = some b)
    (hu : db.utangOf? mid = some u) :
    (api_process_refund db inp).1 = .ok t.id
    ∧ (api_process_refund db inp).2.balanceOf? mid = some (b + (t.total_amount : Int))
    ∧ (api_process_refund db inp).2.utangOf? mid = some u
    ∧ (api_process_refund db inp).2.statusOf? t.id = some "cancelled" := by
  have hapi : api_process_refund db inp
      = (.ok t.id, applyOps (refundOps db t inp.reason) db) := by
    unfold api_process_refund
    rw [helig]
  have hops : refundOps db t inp.reason
      = ([creditOp mid (t.total_amount : Int), recordOp mid (t.total_amount : Int)]
          ++ ((db.txn_items.filter (fun it => it.transaction_id = t.id)).filterMap
              (fun it => it.product_id.map (fun pid => restockOp pid it.quantity))))
        ++ [statusOp t.id inp.reason] := by
    unfold refundOps
    rw [hmid]
  have hd1 : applyOps [creditOp mid (t.total_amount : Int),
      recordOp mid (t.total_amount : Int)] db
      = recordOp mid (t.total_amount : Int) (creditOp mid (t.total_amount : Int) db) := by
    simp [applyOps]
  rw [hapi, hops, applyOps_append, applyOps_append, hd1]
  set d1 := recordOp mid (t.total_amount : Int) (creditOp mid (t.total_amount : Int) db)
    with hd1def
  set d2 := applyOps ((db.txn_items.filter (fun it => it.transaction_id = t.id)).filterMap
      (fun it => it.product_id.map (fun pid => restockOp pid it.quantity))) d1 with hd2def
  have hbal1 : d1.balanceOf? mid = some (b + (t.total_amount : Int)) := by
    rw [hd1def, balanceOf?_eq_of_members _ _ (recordOp_members mid _ _) mid,
      balanceOf?_creditOp, hb]
    rfl
  have hut1 : d1.utangOf? mid = some u := by
    rw [hd1def, utangOf?_eq_of_members _ _ (recordOp_members mid _ _) mid,
      utangOf?_creditOp, hu]
  have hmem2 : d2.members = d1.members := by
    rw [hd2def]
    exact restockFold_members _ d1
  have htf : (d2.transactions.find? (fun x => x.id = t.id)).isSome := by
    obtain ⟨tid0, _, hf, htid, _⟩ := refundEligible_spec db inp t helig
    have h1 : d2.transactions = db.transactions := by
      rw [hd2def, restockFold_transactions, hd1def, recordOp_transactions,
        creditOp_transactions]
    rw [h1]
    exact find?_weaken _ _ db.transactions
      (by intro x hx; simp only [Bool.and_eq_true, decide_eq_true_eq] at hx ⊢; rw [hx.1, htid])
      t hf
  refine ⟨rfl, ?_, ?_, ?_⟩
  · have h1 : applyOps [statusOp t.id inp.reason] d2 = statusOp t.id inp.reason d2 := by
      simp [applyOps]
    rw [h1, balanceOf?_eq_of_members _ _ (statusOp_members t.id inp.reason d2) mid,
      balanceOf?_eq_of_members _ _ hmem2 mid, hbal1]
  · have h1 : applyOps [statusOp t.id inp.reason] d2 = statusOp t.id inp.reason d2 := by
      simp [applyOps]
    rw [h1, utangOf?_eq_of_members _ _ (statusOp_members t.id inp.reason d2) mid,
      utangOf?_eq_of_members _ _ hmem2 mid, hut1]
  · have h1 : applyOps [statusOp t.id inp.reason] d2 = statusOp t.id inp.reason d2 := by
      simp [applyOps]
    rw [h1]
    exact statusOf?_statusOp d2 t.id inp.reason htf

/-- C8 witness: refunding the concrete completed cash sale credits the
member's balance by 110.00, keeps utang at 0 and cancels the transaction. -/
theorem c8_refund_credits_balance_witness :
    (api_process_refund refundDb refundReq).1 = .ok soldTxn.id
    ∧ (api_process_refund refundDb refundReq).2.balanceOf? 1 = some (3000 + (soldTxn.total_amount : Int))
    ∧ (api_process_refund refundDb refundReq).2.utangOf? 1 = some 0
    ∧ (api_process_refund refundDb refundReq).2.statusOf? soldTxn.id = some "cancelled" :=
  c8_refund_credits_balance refundDb refundReq soldTxn 1 3000 0 (by rfl) (by decide)
    (by decide) (by decide)

/-- C6 (amended): a refund increments each still-existing product's stock by
the summed quantities of the transaction's items for that product, but appends
no StockTransaction whatsoever. -/
theorem c6_restock_amended (db : DB) (inp : RefundInput) (t : Txn)
    (helig : refundEligible db inp = .ok t) :
    (api_process_refund db inp).2.stock_txns = db.stock_txns
    ∧ ∀ pid s, db.stockOf? pid = some s →
        (api_process_refund db inp).2.stockOf? pid
          = some (s + (((db.txn_items.filter (fun it => it.transaction_id = t.id)).filter
              (fun it => it.product_id = some pid)).map (fun it => (it.quantity : Int))).sum) := by
  have hapi : api_process_refund db inp
      = (.ok t.id, applyOps (refundOps db t inp.reason) db) := by
    unfold api_process_refund
    rw [helig]
  rw [hapi]
  constructor
  · exact applyOps_proj DB.stock_txns (refundOps db t inp.reason)
      (refundOps_stock_txns_pres db t inp.reason) db
  · intro pid s hs
    have hops : refundOps db t inp.reason
        = ((match t.member_id with
            | some mid => [creditOp mid (t.total_amount : Int),
                recordOp mid (t.total_amount : Int)]
            | none => [])
            ++ ((db.txn_items.filter (fun it => it.transaction_id = t.id)).filterMap
                (fun it => it.product_id.map (fun pid => restockOp pid it.quantity))))
          ++ [statusOp t.id inp.reason] := by
      unfold refundOps
      simp
    rw [hops, applyOps_append, applyOps_append]
    set d1 := applyOps (match t.member_id with
        | some mid => [creditOp mid (t.total_amount : Int),
            recordOp mid (t.total_amount : Int)]
        | none => []) db with hd1def
    set d2 := applyOps ((db.txn_items.filter (fun it => it.transaction_id = t.id)).filterMap
        (fun it => it.product_id.map (fun pid => restockOp pid it.quantity))) d1 with hd2def
    have hstatus : applyOps [statusOp t.id inp.reason] d2 = statusOp t.id inp.reason d2 := by
      simp [applyOps]
    rw [hstatus]
    have hp1 : d1.stockOf? pid = some s := by
      rw [hd1def]
      cases t.member_id with
      | none => simpa [applyOps] using hs
      | some mid =>
        have : applyOps [creditOp mid (t.total_amount : Int),
            recordOp mid (t.total_amount : Int)] db
            = recordOp mid (t.total_amount : Int) (creditOp mid (t.total_amount : Int) db) := by
          simp [applyOps]
        rw [this, stockOf?_eq_of_products _ _ (recordOp_products mid _ _) pid,
          stockOf?_eq_of_products _ _ (creditOp_products mid _ _) pid]
        exact hs
    rw [stockOf?_eq_of_products _ _ (statusOp_products t.id inp.reason d2) pid, hd2def,
      stockOf?_restockFold, hp1]
    rfl

/-- C6 (amended) witness: the concrete refund restores 2 units to the product
and appends no StockTransaction. -/
theorem c6_restock_amended_witness :
    (api_process_refund refundDb refundReq).2.stock_txns = refundDb.stock_txns
    ∧ (api_process_refund refundDb refundReq).2.stockOf? 1
        = some (4 + (((refundDb.txn_items.filter
            (fun it => it.transaction_id = soldTxn.id)).filter
            (fun it => it.product_id = some 1)).map (fun it => (it.quantity : Int))).sum) :=
  ⟨(c6_restock_amended refundDb refundReq soldTxn (by rfl)).1,
   (c6_restock_amended refundDb refundReq soldTxn (by rfl)).2 1 4 (by decide)⟩

/-- C6 counterexample: the refund restores the stock (4 to 6) but appends zero
StockTransaction records, refuting the claimed one-movement-per-restocked-
product audit trail. -/
theorem c6_restock_no_movement_counterexample :
    (api_process_refund refundDb refundReq).1 = .ok 7
    ∧ (api_process_refund refundDb refundReq).2.stockOf? 1 = some 6
    ∧ (api_process_refund refundDb refundReq).2.stock_txns.length = 0 := by decide

/-- C7: for every non-negative 2-decimal unit price (in centavos) and positive
quantity, the fields computed by `TransactionItem.save` under VAT rate 0.12
with half-even rounding satisfy `vat_amount + vatable_sale = total_price`
exactly, and `total_price` is the exact product. -/
theorem c7_item_vat_decomposition (price qty : Nat) (_hq : 0 < qty) :
    (itemSave price qty).vat_amount + (itemSave price qty).vatable_sale
        = (itemSave price qty).total_price
    ∧ (itemSave price qty).total_price = price * qty := by
  have ht : (itemSave price qty).total_price = price * qty := by
    simp [itemSave, rhe100_mul_100]
  refine ⟨?_, ht⟩
  have h12 : (itemSave price qty).vat_amount = rhe100 (12 * (price * qty)) := by
    simp [itemSave, vatRateNum, rhe100_mul_100]
  have h88 : (itemSave price qty).vatable_sale = rhe100 (88 * (price * qty)) := by
    simp [itemSave, vatRateNum, rhe100_mul_100]
  rw [h12, h88, ht]
  exact rhe100_split (price * qty)

/-- C7 witness: the spec example, unit price 55.00 and quantity 2, gives
13.20 + 96.80 = 110.00. -/
theorem c7_item_vat_decomposition_witness :
    0 < 2 ∧ ((itemSave 5500 2).vat_amount + (itemSave 5500 2).vatable_sale
      = (itemSave 5500 2).total_price ∧ (itemSave 5500 2).total_price = 5500 * 2) :=
  ⟨by decide, c7_item_vat_decomposition 5500 2 (by decide)⟩

/-- C1 (at the failing input): a cash settlement offering 40.00 against a
55.00 total returns the insufficient-cash failure, yet the call commits a
persisted transaction still in status pending, the stock decrement (10 to 9),
the created item row and the product-fee ledger entry — the atomic block
commits because the failure is returned, not raised. -/
theorem c1_insufficient_cash_commits :
    (process_payment splitDb cashShortInput).1 = .err "Insufficient cash"
    ∧ (process_payment splitDb cashShortInput).2.statusOf? 1 = some "pending"
    ∧ (process_payment splitDb cashShortInput).2.stockOf? 1 = some 9
    ∧ (process_payment splitDb cashShortInput).2.txn_items.length = 1
    ∧ (process_payment splitDb cashShortInput).2.balance_txns.length = 1
    ∧ (process_payment splitDb cashShortInput).2 ≠ splitDb := by decide

/-- C2 counterexample: with member balance 30.00 and cart total 55.00 paid by
debit, the stored `amount_from_balance` is 29.50, not the claimed 30.00,
because the 0.50 product fee is deducted from the member before the waterfall
reads the balance. -/
theorem c2_split_settlement_counterexample :
    (process_payment splitDb splitInput).1 = .ok 1
    ∧ ¬ (((process_payment splitDb splitInput).2.transactions.find?
        (fun x => x.id = 1)).map Txn.amount_from_balance = some 3000) := by decide

/-- C2 (amended): in the 30.00-balance, 55.00-total debit scenario the
product fee of 0.50 is deducted first, so the settlement records
`amount_from_balance = 29.50`, `amount_to_utang = 25.50`, rewrites the stored
payment method to credit, and leaves the member at balance 0.00 with utang
increased by 25.50. -/
theorem c2_split_settlement_amended :
    (process_payment splitDb splitInput).1 = .ok 1
    ∧ ((process_payment splitDb splitInput).2.transactions.find? (fun x => x.id = 1)).map
        (fun t => (t.amount_from_balance, t.amount_to_utang, t.payment_method, t.status))
      = some (2950, 2550, "credit", "completed")
    ∧ (process_payment splitDb splitInput).2.balanceOf? 1 = some 0
    ∧ (process_payment splitDb splitInput).2.utangOf? 1 = some 2550 := by decide

/-- C4 counterexample: a fault right after the refund's first write (the
balance credit) leaves a state where the member has been credited 110.00 but
stock is not restored and the transaction is still completed — a partially
applied refund is observable because no atomic unit of work wraps the view.
The completed run is shown alongside for contrast. -/
theorem c4_refund_mid_fault_observable :
    (refundUpTo refundDb refundReq 1).balanceOf? 1 = some 14000
    ∧ (refundUpTo refundDb refundReq 1).stockOf? 1 = some 4
    ∧ (refundUpTo refundDb refundReq 1).statusOf? 7 = some "completed"
    ∧ (api_process_refund refundDb refundReq).2.balanceOf? 1 = some 14000
    ∧ (api_process_refund refundDb refundReq).2.stockOf? 1 = some 6
    ∧ (api_process_refund refundDb refundReq).2.statusOf? 7 = some "cancelled" := by decide

/-- C4 (amended): every failure that `api_process_refund` itself returns is
detected before the first write, so an error result leaves the store
unchanged; atomicity holds only in that narrow sense, not against
mid-execution faults. -/
theorem c4_refund_error_no_mutation (db : DB) (inp : RefundInput) (e : String)
    (h : (api_process_refund db inp).1 = .err e) :
    (api_process_refund db inp).2 = db := by
  unfold api_process_refund at h ⊢
  cases he : refundEligible db inp with
  | error e2 => rfl
  | ok t => rw [he] at h; simp at h

/-- C4 (amended) witness: the error on refunding an already-cancelled
transaction leaves the store unchanged. -/
theorem c4_refund_error_no_mutation_witness :
    (api_process_refund cancelledDb refundReq).2 = cancelledDb :=
  c4_refund_error_no_mutation cancelledDb refundReq
    "Transaction not found or not eligible for refund" (by decide)

/-- C5 counterexample: the split-debit settlement moves 29.50 out of the
member's balance and adds 25.50 of utang, yet none of the three
BalanceTransaction rows it persists records either mutation — they are all
fee records. -/
theorem c5_ledger_audit_counterexample :
    (process_payment splitDb splitInput).1 = .ok 1
    ∧ (process_payment splitDb splitInput).2.balanceOf? 1 = some 0
    ∧ (process_payment splitDb splitInput).2.utangOf? 1 = some 2550
    ∧ ((process_payment splitDb splitInput).2.balance_txns.filter
        (fun bt => bt.amount = 2950 || bt.amount = 2550)).length = 0
    ∧ (process_payment splitDb splitInput).2.balance_txns.length = 3 := by decide

/-- C10: a refund attempt against a transaction whose status is not
`completed` (for example one already cancelled by a prior refund) returns the
not-eligible error and performs no mutation at all. -/
theorem c10_second_refund_clean (db : DB) (inp : RefundInput) (tid : Nat) (t : Txn)
    (hid : inp.transaction_id = some tid)
    (_hex : t ∈ db.transactions ∧ t.id = tid)
    (hall : ∀ u ∈ db.transactions, u.id = tid → u.status ≠ "completed") :
    (api_process_refund db inp).1 = .err "Transaction not found or not eligible for refund"
    ∧ (api_process_refund db inp).2 = db := by
  have hf : db.transactions.find? (fun x => x.id = tid && x.status = "completed") = none := by
    rw [List.find?_eq_none]
    intro u hu
    simp only [Bool.and_eq_true, decide_eq_true_eq, not_and]
    exact fun h1 => hall u hu h1
  have he : refundEligible db inp
      = .error "Transaction not found or not eligible for refund" := by
    simp [refundEligible, hid, hf]
  constructor
  · simp [api_process_refund, he]
  · simp [api_process_refund, he]

/-- C10 witness: the second refund attempt on the already-cancelled concrete
transaction fails cleanly with no mutation. -/
theorem c10_second_refund_clean_witness :
    (api_process_refund cancelledDb refundReq).1
      = .err "Transaction not found or not eligible for refund"
    ∧ (api_process_refund cancelledDb refundReq).2 = cancelledDb :=
  c10_second_refund_clean cancelledDb refundReq 7 cancelledTxn (by decide)
    ⟨by decide, by decide⟩ (by decide)

/-- C9 witness: the concrete debit settlement preserves non-negative stock. -/
theorem c9_no_negative_stock_witness :
    (∀ p ∈ splitDb.products, 0 ≤ p.stock_quantity)
    ∧ ∀ q ∈ (process_payment splitDb splitInput).2.products, 0 ≤ q.stock_quantity :=
  ⟨by decide, c9_no_negative_stock splitDb splitInput (by decide)⟩

/-! Waterfall branch characterizations, used for the fee-transfer and
audit-count claims. -/

theorem waterfall_debit_suff (db5 : DB) (t2 : Txn) (mid : Nat) (cash : Option Int)
    (mf : Member) (hm : db5.member? mid = some mf)
    (hge : (t2.total_amount : Int) ≤ mf.balance) :
    waterfall db5 t2 (some mid) "debit" cash
      = (none,
         { t2 with amount_from_balance := (t2.total_amount : Int), status := "completed" },
         creditSysAccount
           (db5.saveMember { mf with balance := mf.balance - (t2.total_amount : Int) })
           50 "Debit transaction fee") := by
  simp [waterfall, hm, Member.deduct_balance, hge]

theorem waterfall_debit_insuff (db5 : DB) (t2 : Txn) (mid : Nat) (cash : Option Int)
    (mf : Member) (hm : db5.member? mid = some mf)
    (hlt : mf.balance < (t2.total_amount : Int)) :
    waterfall db5 t2 (some mid) "debit" cash
      = (none,
         { t2 with
           amount_from_balance := mf.balance,
           amount_to_utang := (t2.total_amount : Int) - mf.balance,
           payment_method := "credit", status := "completed" },
         creditSysAccount
           ((db5.saveMember { mf with balance := mf.balance - mf.balance }).saveMember
             { mf with
               balance := mf.balance - mf.balance,
               utang_balance := mf.utang_balance + ((t2.total_amount : Int) - mf.balance) })
           50 "Debit transaction fee") := by
  have hnot : ¬ (t2.total_amount : Int) ≤ mf.balance := not_le.mpr hlt
  simp [waterfall, hm, Member.deduct_balance, Member.add_utang, hnot]

theorem waterfall_credit_spec (db5 : DB) (t2 : Txn) (mid : Nat) (cash : Option Int)
    (mf : Member) (hm : db5.member? mid = some mf) :
    waterfall db5 t2 (some mid) "credit" cash
      = (none,
         { t2 with amount_to_utang := (t2.total_amount : Int), status := "completed" },
         db5.saveMember
           { mf with utang_balance := mf.utang_balance + (t2.total_amount : Int) }) := by
  simp [waterfall, hm, Member.add_utang]

theorem waterfall_cash_none (db5 : DB) (t2 : Txn) (mo : Option Nat) :
    waterfall db5 t2 mo "cash" none
      = (none, { t2 with amount_paid := (t2.total_amount : Int), status := "completed" },
         db5) := by
  simp [waterfall]

theorem waterfall_cash_some_ok (db5 : DB) (t2 : Txn) (mo : Option Nat) (c : Int)
    (hge : (t2.total_amount : Int) ≤ c) :
    waterfall db5 t2 mo "cash" (some c)
      = (none, { t2 with amount_paid := c, status := "completed" }, db5) := by
  have hnl : ¬ c < (t2.total_amount : Int) := not_lt.mpr hge
  simp [waterfall, hnl]

theorem waterfall_cash_some_insuff (db5 : DB) (t2 : Txn) (mo : Option Nat) (c : Int)
    (hlt : c < (t2.total_amount : Int)) :
    waterfall db5 t2 mo "cash" (some c) = (some "Insufficient cash", t2, db5) := by
  simp [waterfall, hlt]

theorem waterfall_invalid (db5 : DB) (t2 : Txn) (mo : Option Nat) (meth : String)
    (cash : Option Int) (h1 : meth ≠ "debit") (h2 : meth ≠ "credit") (h3 : meth ≠ "cash") :
    waterfall db5 t2 mo meth cash = (none, t2, db5) := by
  simp [waterfall, h1, h2, h3]

theorem waterfall_other_db (db5 : DB) (t2 : Txn) (mo : Option Nat) (meth : String)
    (cash : Option Int) (t3 : Txn) (db6 : DB)
    (hmeth : meth ≠ "debit" ∧ meth ≠ "credit")
    (h : waterfall db5 t2 mo meth cash = (none, t3, db6)) : db6 = db5 := by
  by_cases hc : meth = "cash"
  · subst hc
    cases cash with
    | none =>
      rw [waterfall_cash_none] at h
      injection h with h1 h2
      injection h2 with h2a h2b
      exact h2b.symm
    | some c =>
      by_cases hlt : c < (t2.total_amount : Int)
      · rw [waterfall_cash_some_insuff db5 t2 mo c hlt] at h
        injection h with h1 _
        simp at h1
      · rw [waterfall_cash_some_ok db5 t2 mo c (not_lt.mp hlt)] at h
        injection h with h1 h2
        injection h2 with h2a h2b
        exact h2b.symm
  · rw [waterfall_invalid db5 t2 mo meth cash hmeth.1 hmeth.2 hc] at h
    injection h with h1 h2
    injection h2 with h2a h2b
    exact h2b.symm

theorem creditSysAccount_transactions (db : DB) (a : Int) (n : String) :
    (creditSysAccount db a n).transactions = db.transactions := by
  unfold creditSysAccount
  dsimp only []
  split <;> simp

theorem creditSysAccount_balance (db : DB) (a : Int) (n : String) (sys1 : Member)
    (hph : db.memberByPhone? sysAccountPhone = some sys1)
    (hsome : (db.member? sys1.id).isSome) :
    (creditSysAccount db a n).balanceOf? sys1.id = some (sys1.balance + a) := by
  rw [creditSysAccount_spec db a n sys1 hph]
  simp only [DB.balanceOf?, member?_addBalanceTxn]
  rw [show sys1.id = ({ sys1 with balance := sys1.balance + a } : Member).id from rfl,
    member?_saveMember_self db _ (by simpa using hsome)]
  rfl

theorem creditSysAccount_btxns (db : DB) (a : Int) (n : String) (sys1 : Member)
    (hph : db.memberByPhone? sysAccountPhone = some sys1) :
    (creditSysAccount db a n).balance_txns
      = db.balance_txns
        ++ [{ member_id := sys1.id, transaction_type := "deposit", amount := a,
              balance_before := sys1.balance, balance_after := sys1.balance + a,
              utang_before := 0, utang_after := 0, notes := n }] := by
  rw [creditSysAccount_spec db a n sys1 hph]
  simp

theorem creditSysAccount_balance_ne (db : DB) (a : Int) (n : String) (sys1 : Member)
    (hph : db.memberByPhone? sysAccountPhone = some sys1) (mid : Nat)
    (hne : mid ≠ sys1.id) :
    (creditSysAccount db a n).balanceOf? mid = db.balanceOf? mid := by
  rw [creditSysAccount_spec db a n sys1 hph]
  simp only [DB.balanceOf?, member?_addBalanceTxn]
  rw [member?_saveMember_ne db _ mid (by simpa using hne)]

theorem member?_isSome_of_balanceOf? (db : DB) (mid : Nat) (b : Int)
    (h : db.balanceOf? mid = some b) : (db.member? mid).isSome := by
  cases hm : db.member? mid with
  | none => simp only [DB.balanceOf?, hm] at h; cases h
  | some y => simp

theorem balanceOf?_saveTxn (db : DB) (t : Txn) (mid : Nat) :
    (db.saveTxn t).balanceOf? mid = db.balanceOf? mid := by
  simp [DB.balanceOf?]

/-- C3: every successful settlement credits the hard-coded system account
(the active member with phone 3247035272) with 0.50 per unit of cart
quantity, plus a further flat 0.50 when the requested payment method is
debit; when the sale has an associated member, the same per-unit fee total is
deducted from that member's balance unconditionally, whatever the payment
method (no sufficiency check, so the balance can go negative), and the
deduction happens before the debit waterfall reads the balance: with any
non-debit method the member's final balance is the original balance minus the
fee; a sufficient-balance debit additionally removes the full total on top of
the fee; and a split debit records `amount_from_balance` equal to the
original balance minus the fee and zeroes the balance. -/
theorem c3_product_fee_transfers (db : DB) (inp : PayInput) (tid : Nat) (sys : Member)
    (hnd : (db.members.map Member.id).Nodup)
    (hsys : db.memberByPhone? sysAccountPhone = some sys)
    (hok : (process_payment db inp).1 = .ok tid)
    (hne : ∀ m, resolveMember db inp = .ok (some m) → m.id ≠ sys.id) :
    (process_payment db inp).2.balanceOf? sys.id
      = some (sys.balance + 50 * (cartUnits inp.items : Int)
          + (if inp.payment_method = "debit" then 50 else 0))
    ∧ (∀ m, resolveMember db inp = .ok (some m) → inp.payment_method ≠ "debit" →
        (process_payment db inp).2.balanceOf? m.id
          = some (m.balance - 50 * (cartUnits inp.items : Int)))
    ∧ (∀ m t', resolveMember db inp = .ok (some m) → inp.payment_method = "debit" →
        (process_payment db inp).2.transactions.find? (fun x => x.id = tid) = some t' →
        (t'.payment_method = "credit" →
          t'.amount_from_balance = m.balance - 50 * (cartUnits inp.items : Int)
          ∧ (process_payment db inp).2.balanceOf? m.id = some 0)
        ∧ (t'.payment_method = "debit" →
          t'.amount_from_balance = (t'.total_amount : Int)
          ∧ (process_payment db inp).2.balanceOf? m.id
              = some (m.balance - 50 * (cartUnits inp.items : Int)
                  - (t'.total_amount : Int)))) := by
  obtain ⟨member, db2, hres, hval, hpre, hempty, hsell, heq⟩ :=
    process_payment_ok_inv db inp tid hok
  have hok2 : (settleAfterSell db2 (initTxn db inp member) member inp).1 = .ok tid := by
    rw [← heq]; exact hok
  obtain ⟨htid, t3, db6, hw, hsnd⟩ :=
    settleAfterSell_ok_inv db2 (initTxn db inp member) member inp tid hok2
  set t0 := initTxn db inp member with ht0
  have hdb2eq : db2 = (sellLoop t0.id (db.addTxn t0) inp.items).1 := by rw [hsell]
  have hmem2 : db2.members = db.members := by
    rw [hdb2eq, sellLoop_members]; simp
  have hnd2 : (db2.members.map Member.id).Nodup := by rw [hmem2]; exact hnd
  have hsys2 : db2.memberByPhone? sysAccountPhone = some sys := by
    simp only [DB.memberByPhone?, hmem2]
    exact hsys
  have htxn2 : db2.transactions = db.transactions ++ [t0] := by
    rw [hdb2eq, sellLoop_transactions]; simp [DB.addTxn]
  have htn2 : (db2.transactions.find? (fun x => x.id = t0.id)).isSome := by
    rw [htxn2]
    exact List.find?_isSome.mpr ⟨t0, by simp, by simp⟩
  have hu : 0 < cartUnits inp.items := cartUnits_pos inp.items hempty hval
  have hdb' : (process_payment db inp).2 = db6.saveTxn t3 := by
    rw [heq]; exact hsnd
  cases member with
  | none =>
    have hdm : inp.payment_method ≠ "debit" := by
      intro hd
      rcases resolveMember_method_member db inp none hres (Or.inl hd) with ⟨m, hm⟩
      cases hm
    have hcm : inp.payment_method ≠ "credit" := by
      intro hc
      rcases resolveMember_method_member db inp none hres (Or.inr hc) with ⟨m, hm⟩
      cases hm
    obtain ⟨hph5, hbal5, hbt5, hids5, htf5, hfst5⟩ :=
      feeState_none_spec db2 t0 inp sys (50 * (cartUnits inp.items : Int)) rfl hnd2 hsys2
        hu htn2
    have hdb6 : db6 = (feeState db2 t0 none inp).2 :=
      waterfall_other_db _ _ _ _ _ t3 db6 ⟨hdm, hcm⟩ hw
    refine ⟨?_, ?_, ?_⟩
    · rw [hdb']
      show db6.balanceOf? sys.id = _
      rw [hdb6, hbal5, if_neg hdm, add_zero]
    · intro m hres2 _
      rw [hres] at hres2
      cases (Except.ok.inj hres2)
    · intro m t' hres2 _ _
      rw [hres] at hres2
      cases (Except.ok.inj hres2)
  | some m =>
    have hmm : m ∈ db2.members := by
      rw [hmem2]; exact (resolveMember_ok_mem db inp m hres).1
    have hmne : m.id ≠ sys.id := hne m hres
    obtain ⟨hph5, hbalsys5, ⟨mf, hmf, hmfid, hmfbal, hmfut, hmfph, hmfact⟩,
        hbt5, hids5, htf5, hfst5⟩ :=
      feeState_member_spec db2 t0 m inp sys (50 * (cartUnits inp.items : Int)) rfl hnd2
        hsys2 hmm hmne hu htn2
    simp only [Option.map_some'] at hw
    set F : Int := 50 * (cartUnits inp.items : Int) with hF
    set db5 := (feeState db2 t0 (some m) inp).2 with hdb5
    set t2 := (feeState db2 t0 (some m) inp).1 with ht2
    have ht2pm : t2.payment_method = inp.payment_method := by
      rw [hfst5]; rfl
    have ht2id : t2.id = t0.id := by
      rw [hfst5]; rfl
    have hnd5 : (db5.members.map Member.id).Nodup := by
      rw [hdb5, hids5]; exact hnd2
    have hsys5some : (db5.member? sys.id).isSome :=
      member?_isSome_of_balanceOf? db5 sys.id _ hbalsys5
    by_cases hd : inp.payment_method = "debit"
    · rw [hd] at hw
      by_cases hge : (t2.total_amount : Int) ≤ mf.balance
      · rw [waterfall_debit_suff db5 t2 m.id inp.cash_amount mf hmf hge] at hw
        have ht3 : t3 =
            { t2 with
              amount_from_balance := (t2.total_amount : Int),
              status := "completed" } := by
          injection hw with h1 h2
          injection h2 with h2a h2b
          exact h2a.symm
        have hdb6 : db6 = creditSysAccount
            (db5.saveMember { mf with balance := mf.balance - (t2.total_amount : Int) })
            50 "Debit transaction fee" := by
          injection hw with h1 h2
          injection h2 with h2a h2b
          exact h2b.symm
        set m2 : Member := { mf with balance := mf.balance - (t2.total_amount : Int) }
          with hm2
        set dbB := db5.saveMember m2 with hdbB
        have hm2id : m2.id = m.id := hmfid
        have hsysne : ¬ sys.id = m2.id := by
          rw [hm2id]; exact fun hc => hmne hc.symm
        have hphB : dbB.memberByPhone? sysAccountPhone
            = some { sys with balance := sys.balance + F } := by
          rw [hdbB, memberByPhone?_saveMember db5 m2 mf sysAccountPhone hnd5
            (by rw [show m2.id = mf.id from rfl, hmfid]; exact hmf)
            rfl rfl]
          rw [hph5]
          simp only [Option.map_some']
          rw [if_neg (by rw [show ({ sys with balance := sys.balance + F } : Member).id = sys.id from rfl]; exact hsysne)]
        have hsomeB : (dbB.member? ({ sys with balance := sys.balance + F } : Member).id).isSome := by
          show (dbB.member? sys.id).isSome
          rw [hdbB, member?_saveMember_ne db5 m2 sys.id hsysne]
          exact hsys5some
        refine ⟨?_, ?_, ?_⟩
        · rw [hdb']
          show db6.balanceOf? sys.id = _
          rw [hdb6]
          rw [show sys.id = ({ sys with balance := sys.balance + F } : Member).id from rfl]
          rw [creditSysAccount_balance dbB 50 "Debit transaction fee" _ hphB hsomeB]
          rw [if_pos hd]
        · intro m' hres2 hndeb
          exact absurd hd hndeb
        · intro m' t' hres2 _ hfind
          have hm' : m' = m := by
            rw [hres] at hres2
            exact (Option.some.inj (Except.ok.inj hres2)).symm
          rw [hm']
          have ht3id : t3.id = tid := by
            rw [ht3]
            show t2.id = tid
            rw [ht2id, htid]
          have htr6 : db6.transactions = db5.transactions := by
            rw [hdb6, creditSysAccount_transactions, hdbB]
            simp
          rw [hdb'] at hfind
          have hfind' : (db6.saveTxn t3).transactions.find? (fun x => x.id = tid)
              = some t3 := by
            rw [show tid = t3.id from ht3id.symm]
            apply txnFind_saveTxn_self
            have h5 : (db5.transactions.find? (fun x => x.id = t3.id)).isSome := by
              rw [show t3.id = t0.id from by rw [ht3]; show t2.id = t0.id; exact ht2id]
              exact htf5
            rw [htr6]
            exact h5
          rw [hfind'] at hfind
          have ht' : t' = t3 := (Option.some.inj hfind).symm
          subst ht'
          constructor
          · intro hpm
            rw [ht3] at hpm
            have hcred : inp.payment_method = "credit" := by
              rw [← ht2pm]; exact hpm
            exact absurd (hd.symm.trans hcred) (by decide)
          · intro _
            constructor
            · rw [ht3]
            · rw [hdb', balanceOf?_saveTxn, hdb6,
                creditSysAccount_balance_ne dbB 50 "Debit transaction fee" _ hphB m.id hmne]
              rw [hdbB]
              simp only [DB.balanceOf?]
              rw [show m.id = m2.id from hm2id.symm,
                member?_saveMember_self db5 m2 (by rw [hm2id]; simp [hmf])]
              simp only [Option.map_some']
              show some (mf.balance - (t2.total_amount : Int)) = _
              rw [hmfbal, ht3]
      · have hlt : mf.balance < (t2.total_amount : Int) := not_le.mp hge
        rw [waterfall_debit_insuff db5 t2 m.id inp.cash_amount mf hmf hlt] at hw
        have ht3 : t3 =
            { t2 with
              amount_from_balance := mf.balance,
              amount_to_utang := (t2.total_amount : Int) - mf.balance,
              payment_method := "credit", status := "completed" } := by
          injection hw with h1 h2
          injection h2 with h2a h2b
          exact h2a.symm
        have hdb6 : db6 = creditSysAccount
            ((db5.saveMember { mf with balance := mf.balance - mf.balance }).saveMember
              { mf with
                balance := mf.balance - mf.balance,
                utang_balance := mf.utang_balance + ((t2.total_amount : Int) - mf.balance) })
            50 "Debit transaction fee" := by
          injection hw with h1 h2
          injection h2 with h2a h2b
          exact h2b.symm
        set m2 : Member := { mf with balance := mf.balance - mf.balance } with hm2
        set m3 : Member :=
          { mf with
            balance := mf.balance - mf.balance,
            utang_balance := mf.utang_balance + ((t2.total_amount : Int) - mf.balance) }
          with hm3
        set dbB := (db5.saveMember m2).saveMember m3 with hdbB
        have hm2id : m2.id = m.id := hmfid
        have hm3id : m3.id = m.id := hmfid
        have hsysne2 : ¬ sys.id = m2.id := by
          rw [hm2id]; exact fun hc => hmne hc.symm
        have hsysne3 : ¬ sys.id = m3.id := by
          rw [hm3id]; exact fun hc => hmne hc.symm
        have hndB2 : ((db5.saveMember m2).members.map Member.id).Nodup := by
          rw [saveMember_ids]; exact hnd5
        have hphB : dbB.memberByPhone? sysAccountPhone
            = some { sys with balance := sys.balance + F } := by
          rw [hdbB]
          rw [memberByPhone?_saveMember (db5.saveMember m2) m3 m2 sysAccountPhone hndB2
            (by rw [show m3.id = m2.id from rfl]
                apply member?_saveMember_self
                rw [show m2.id = mf.id from rfl, hmfid]
                simp [hmf])
            rfl rfl]
          rw [memberByPhone?_saveMember db5 m2 mf sysAccountPhone hnd5
            (by rw [show m2.id = mf.id from rfl, hmfid]; exact hmf) rfl rfl]
          rw [hph5]
          simp only [Option.map_some']
          have hc2 : ¬ ({ sys with balance := sys.balance + F } : Member).id = m2.id := by
            show ¬ sys.id = m2.id
            exact hsysne2
          have hc3 : ¬ ({ sys with balance := sys.balance + F } : Member).id = m3.id := by
            show ¬ sys.id = m3.id
            exact hsysne3
          rw [if_neg hc2, if_neg hc3]
        have hsomeB : (dbB.member? ({ sys with balance := sys.balance + F } : Member).id).isSome := by
          show (dbB.member? sys.id).isSome
          rw [hdbB, member?_saveMember_ne _ m3 sys.id hsysne3,
            member?_saveMember_ne db5 m2 sys.id hsysne2]
          exact hsys5some
        refine ⟨?_, ?_, ?_⟩
        · rw [hdb']
          show db6.balanceOf? sys.id = _
          rw [hdb6]
          rw [show sys.id = ({ sys with balance := sys.balance + F } : Member).id from rfl]
          rw [creditSysAccount_balance dbB 50 "Debit transaction fee" _ hphB hsomeB]
          rw [if_pos hd]
        · intro m' hres2 hndeb
          exact absurd hd hndeb
        · intro m' t' hres2 _ hfind
          have hm' : m' = m := by
            rw [hres] at hres2
            exact (Option.some.inj (Except.ok.inj hres2)).symm
          rw [hm']
          have ht3id : t3.id = tid := by
            rw [ht3]
            show t2.id = tid
            rw [ht2id, htid]
          have htr6 : db6.transactions = db5.transactions := by
            rw [hdb6, creditSysAccount_transactions, hdbB]
            simp
          rw [hdb'] at hfind
          have hfind' : (db6.saveTxn t3).transactions.find? (fun x => x.id = tid)
              = some t3 := by
            rw [show tid = t3.id from ht3id.symm]
            apply txnFind_saveTxn_self
            have h5 : (db5.transactions.find? (fun x => x.id = t3.id)).isSome := by
              rw [show t3.id = t0.id from by rw [ht3]; show t2.id = t0.id; exact ht2id]
              exact htf5
            rw [htr6]
            exact h5
          rw [hfind'] at hfind
          have ht' : t' = t3 := (Option.some.inj hfind).symm
          subst ht'
          constructor
          · intro _
            constructor
            · rw [ht3]
              show mf.balance = m.balance - F
              rw [hmfbal]
            · rw [hdb', balanceOf?_saveTxn, hdb6,
                creditSysAccount_balance_ne dbB 50 "Debit transaction fee" _ hphB m.id hmne]
              rw [hdbB]
              simp only [DB.balanceOf?]
              have hsave2 : (db5.saveMember m2).member? m3.id = some m2 := by
                rw [show m3.id = m2.id from rfl]
                apply member?_saveMember_self
                rw [hm2id]
                simp [hmf]
              have hsave3 : ((db5.saveMember m2).saveMember m3).member? m.id = some m3 := by
                rw [show m.id = m3.id from hm3id.symm]
                apply member?_saveMember_self
                simp [hsave2]
              rw [hsave3]
              simp only [Option.map_some']
              show some (mf.balance - mf.balance) = some 0
              simp
          · intro hpm
            rw [ht3] at hpm
            have hlit : ("credit" : String) = "debit" := hpm
            exact absurd hlit (by decide)
    · by_cases hcr : inp.payment_method = "credit"
      · rw [hcr] at hw
        rw [waterfall_credit_spec db5 t2 m.id inp.cash_amount mf hmf] at hw
        have hdb6 : db6 = db5.saveMember
            { mf with utang_balance := mf.utang_balance + (t2.total_amount : Int) } := by
          injection hw with h1 h2
          injection h2 with h2a h2b
          exact h2b.symm
        set mUt : Member := { mf with utang_balance := mf.utang_balance + (t2.total_amount : Int) }
          with hmUt
        have hmUtid : mUt.id = m.id := hmfid
        refine ⟨?_, ?_, ?_⟩
        · rw [hdb']
          show db6.balanceOf? sys.id = _
          rw [hdb6]
          simp only [DB.balanceOf?]
          rw [member?_saveMember_ne db5 mUt sys.id
            (by rw [hmUtid]; exact fun hc => hmne hc.symm)]
          have hbal5' := hbalsys5
          simp only [DB.balanceOf?] at hbal5'
          rw [hbal5', if_neg hd, add_zero]
        · intro m' hres2 _
          have hm' : m' = m := by
            rw [hres] at hres2
            exact (Option.some.inj (Except.ok.inj hres2)).symm
          rw [hm']
          rw [hdb', balanceOf?_saveTxn, hdb6]
          have hsaved : (db5.saveMember mUt).member? m.id = some mUt := by
            rw [show m.id = mUt.id from hmUtid.symm]
            apply member?_saveMember_self
            rw [hmUtid]
            simp [hmf]
          simp only [DB.balanceOf?]
          rw [hsaved]
          simp only [Option.map_some']
          show some mf.balance = _
          rw [hmfbal]
        · intro m' t' hres2 hdeb _
          exact absurd (hcr.symm.trans hdeb) (by decide)
      · have hdb6 : db6 = db5 :=
          waterfall_other_db db5 t2 _ inp.payment_method inp.cash_amount t3 db6
            ⟨hd, hcr⟩ hw
        refine ⟨?_, ?_, ?_⟩
        · rw [hdb']
          show db6.balanceOf? sys.id = _
          rw [hdb6, hbalsys5, if_neg hd, add_zero]
        · intro m' hres2 hcash
          have hm' : m' = m := by
            rw [hres] at hres2
            exact (Option.some.inj (Except.ok.inj hres2)).symm
          rw [hm']
          rw [hdb']
          show db6.balanceOf? m.id = _
          rw [hdb6]
          simp only [DB.balanceOf?]
          rw [hmf]
          simp only [Option.map_some']
          rw [hmfbal]
        · intro m' t' hres2 hdeb _
          exact absurd hdeb hd

/-- C5 (amended): a successful debit-method settlement with an associated
member appends exactly three ledger audit records to the store: the product-fee
deposit to the system account, the product-fee deduction from the member, and
the flat 0.50 debit-fee deposit to the system account. In particular the
waterfall's balance debit and utang addition themselves write no
BalanceTransaction record at all. -/
theorem c5_ledger_audit_amended (db : DB) (inp : PayInput) (tid : Nat) (sys m : Member)
    (hnd : (db.members.map Member.id).Nodup)
    (hsys : db.memberByPhone? sysAccountPhone = some sys)
    (hok : (process_payment db inp).1 = .ok tid)
    (hresm : resolveMember db inp = .ok (some m))
    (hmne : m.id ≠ sys.id)
    (hd : inp.payment_method = "debit") :
    ∃ r1 r2 r3 : BalanceTxn,
      (process_payment db inp).2.balance_txns = db.balance_txns ++ [r1, r2, r3]
      ∧ r1.member_id = sys.id ∧ r1.transaction_type = "deposit"
      ∧ r1.amount = 50 * (cartUnits inp.items : Int) ∧ r1.notes = "Product fee"
      ∧ r2.member_id = m.id ∧ r2.transaction_type = "deduction"
      ∧ r2.amount = 50 * (cartUnits inp.items : Int) ∧ r2.notes = "Product fee"
      ∧ r3.member_id = sys.id ∧ r3.transaction_type = "deposit"
      ∧ r3.amount = 50 ∧ r3.notes = "Debit transaction fee" := by
  obtain ⟨member, db2, hres, hval, hpre, hempty, hsell, heq⟩ :=
    process_payment_ok_inv db inp tid hok
  have hmemm : member = some m := by
    rw [hresm] at hres
    exact (Except.ok.inj hres).symm
  subst hmemm
  have hok2 : (settleAfterSell db2 (initTxn db inp (some m)) (some m) inp).1 = .ok tid := by
    rw [← heq]; exact hok
  obtain ⟨_, t3, db6, hw, hsnd⟩ :=
    settleAfterSell_ok_inv db2 (initTxn db inp (some m)) (some m) inp tid hok2
  set t0 := initTxn db inp (some m) with ht0
  have hdb2eq : db2 = (sellLoop t0.id (db.addTxn t0) inp.items).1 := by rw [hsell]
  have hmem2 : db2.members = db.members := by
    rw [hdb2eq, sellLoop_members]; simp
  have hnd2 : (db2.members.map Member.id).Nodup := by rw [hmem2]; exact hnd
  have hsys2 : db2.memberByPhone? sysAccountPhone = some sys := by
    simp only [DB.memberByPhone?, hmem2]
    exact hsys
  have htxn2 : db2.transactions = db.transactions ++ [t0] := by
    rw [hdb2eq, sellLoop_transactions]; simp [DB.addTxn]
  have htn2 : (db2.transactions.find? (fun x => x.id = t0.id)).isSome := by
    rw [htxn2]
    exact List.find?_isSome.mpr ⟨t0, by simp, by simp⟩
  have hu : 0 < cartUnits inp.items := cartUnits_pos inp.items hempty hval
  have hbt2 : db2.balance_txns = db.balance_txns := by
    rw [hdb2eq, sellLoop_balance_txns]; simp [DB.addTxn]
  have hdb' : (process_payment db inp).2 = db6.saveTxn t3 := by
    rw [heq]; exact hsnd
  have hmm : m ∈ db2.members := by
    rw [hmem2]; exact (resolveMember_ok_mem db inp m hresm).1
  obtain ⟨hph5, hbalsys5, ⟨mf, hmf, hmfid, hmfbal, hmfut, hmfph, hmfact⟩,
      ⟨r1, r2, hbt5, hr1mid, hr1ty, hr1amt, hr1n, hr2mid, hr2ty, hr2amt, hr2n⟩,
      hids5, htf5, hfst5⟩ :=
    feeState_member_spec db2 t0 m inp sys (50 * (cartUnits inp.items : Int)) rfl hnd2
      hsys2 hmm hmne hu htn2
  simp only [Option.map_some'] at hw
  set F : Int := 50 * (cartUnits inp.items : Int) with hF
  set db5 := (feeState db2 t0 (some m) inp).2 with hdb5
  set t2 := (feeState db2 t0 (some m) inp).1 with ht2
  have hnd5 : (db5.members.map Member.id).Nodup := by
    rw [hdb5, hids5]; exact hnd2
  set sysF : Member := { sys with balance := sys.balance + F } with hsysF
  rw [hd] at hw
  by_cases hge : (t2.total_amount : Int) ≤ mf.balance
  · rw [waterfall_debit_suff db5 t2 m.id inp.cash_amount mf hmf hge] at hw
    have hdb6 : db6 = creditSysAccount
        (db5.saveMember { mf with balance := mf.balance - (t2.total_amount : Int) })
        50 "Debit transaction fee" := by
      injection hw with h1 h2
      injection h2 with h2a h2b
      exact h2b.symm
    set m2 : Member := { mf with balance := mf.balance - (t2.total_amount : Int) } with hm2
    set dbB := db5.saveMember m2 with hdbB
    have hm2id : m2.id = m.id := hmfid
    have hsysne : ¬ sys.id = m2.id := by
      rw [hm2id]; exact fun hc => hmne hc.symm
    have hphB : dbB.memberByPhone? sysAccountPhone = some sysF := by
      rw [hdbB, memberByPhone?_saveMember db5 m2 mf sysAccountPhone hnd5
        (by rw [show m2.id = mf.id from rfl, hmfid]; exact hmf) rfl rfl]
      rw [hph5]
      simp only [Option.map_some']
      rw [if_neg (by rw [show sysF.id = sys.id from rfl]; exact hsysne)]
    have hcsb := creditSysAccount_btxns dbB 50 "Debit transaction fee" sysF hphB
    refine ⟨r1, r2,
      { member_id := sysF.id, transaction_type := "deposit", amount := 50,
        balance_before := sysF.balance, balance_after := sysF.balance + 50,
        utang_before := 0, utang_after := 0, notes := "Debit transaction fee" },
      ?_, hr1mid, hr1ty, hr1amt, hr1n, hr2mid, hr2ty, hr2amt, hr2n, rfl, rfl, rfl, rfl⟩
    rw [hdb']
    show (db6.saveTxn t3).balance_txns = _
    simp only [balance_txns_saveTxn]
    rw [hdb6, hcsb, hdbB]
    simp only [balance_txns_saveMember]
    rw [hbt5, hbt2]
    simp
  · have hlt : mf.balance < (t2.total_amount : Int) := not_le.mp hge
    rw [waterfall_debit_insuff db5 t2 m.id inp.cash_amount mf hmf hlt] at hw
    have hdb6 : db6 = creditSysAccount
        ((db5.saveMember { mf with balance := mf.balance - mf.balance }).saveMember
          { mf with
            balance := mf.balance - mf.balance,
            utang_balance := mf.utang_balance + ((t2.total_amount : Int) - mf.balance) })
        50 "Debit transaction fee" := by
      injection hw with h1 h2
      injection h2 with h2a h2b
      exact h2b.symm
    set m2 : Member := { mf with balance := mf.balance - mf.balance } with hm2
    set m3 : Member :=
      { mf with
        balance := mf.balance - mf.balance,
        utang_balance := mf.utang_balance + ((t2.total_amount : Int) - mf.balance) }
      with hm3
    set dbB := (db5.saveMember m2).saveMember m3 with hdbB
    have hm2id : m2.id = m.id := hmfid
    have hm3id : m3.id = m.id := hmfid
    have hsysne2 : ¬ sys.id = m2.id := by
      rw [hm2id]; exact fun hc => hmne hc.symm
    have hsysne3 : ¬ sys.id = m3.id := by
      rw [hm3id]; exact fun hc => hmne hc.symm
    have hndB2 : ((db5.saveMember m2).members.map Member.id).Nodup := by
      rw [saveMember_ids]; exact hnd5
    have hphB : dbB.memberByPhone? sysAccountPhone = some sysF := by
      rw [hdbB]
      rw [memberByPhone?_saveMember (db5.saveMember m2) m3 m2 sysAccountPhone hndB2
        (by rw [show m3.id = m2.id from rfl]
            apply member?_saveMember_self
            rw [show m2.id = mf.id from rfl, hmfid]
            simp [hmf])
        rfl rfl]
      rw [memberByPhone?_saveMember db5 m2 mf sysAccountPhone hnd5
        (by rw [show m2.id = mf.id from rfl, hmfid]; exact hmf) rfl rfl]
      rw [hph5]
      simp only [Option.map_some']
      have hc2 : ¬ sysF.id = m2.id := by
        show ¬ sys.id = m2.id
        exact hsysne2
      have hc3 : ¬ sysF.id = m3.id := by
        show ¬ sys.id = m3.id
        exact hsysne3
      rw [if_neg hc2, if_neg hc3]
    have hcsb := creditSysAccount_btxns dbB 50 "Debit transaction fee" sysF hphB
    refine ⟨r1, r2,
      { member_id := sysF.id, transaction_type := "deposit", amount := 50,
        balance_before := sysF.balance, balance_after := sysF.balance + 50,
        utang_before := 0, utang_after := 0, notes := "Debit transaction fee" },
      ?_, hr1mid, hr1ty, hr1amt, hr1n, hr2mid, hr2ty, hr2amt, hr2n, rfl, rfl, rfl, rfl⟩
    rw [hdb']
    show (db6.saveTxn t3).balance_txns = _
    simp only [balance_txns_saveTxn]
    rw [hdb6, hcsb, hdbB]
    simp only [balance_txns_saveMember]
    rw [hbt5, hbt2]
    simp

/-- C5 witness: the concrete split debit settlement writes exactly the three
fee audit records and none for the balance debit or the utang addition. -/
theorem c5_ledger_audit_amended_witness :
    ∃ r1 r2 r3 : BalanceTxn,
      (process_payment feeDb splitInput).2.balance_txns
        = feeDb.balance_txns ++ [r1, r2, r3]
      ∧ r1.member_id = sysMember.id ∧ r1.transaction_type = "deposit"
      ∧ r1.amount = 50 * (cartUnits splitInput.items : Int) ∧ r1.notes = "Product fee"
      ∧ r2.member_id = cardMember.id ∧ r2.transaction_type = "deduction"
      ∧ r2.amount = 50 * (cartUnits splitInput.items : Int) ∧ r2.notes = "Product fee"
      ∧ r3.member_id = sysMember.id ∧ r3.transaction_type = "deposit"
      ∧ r3.amount = 50 ∧ r3.notes = "Debit transaction fee" :=
  c5_ledger_audit_amended feeDb splitInput 1 sysMember cardMember (by decide) (by rfl)
    (by rfl) (by rfl) (by decide) (by rfl)

/-- C3 witness: with the system account already present, the concrete split
debit settlement credits it with 0.50 product fee plus 0.50 debit fee, and
the recorded `amount_from_balance` is the member's balance minus the fee
while the member's balance itself is zeroed. -/
theorem c3_product_fee_transfers_witness :
    (process_payment feeDb splitInput).2.balanceOf? sysMember.id
      = some (sysMember.balance + 50 * (cartUnits splitInput.items : Int)
          + (if splitInput.payment_method = "debit" then 50 else 0))
    ∧ (∀ m, resolveMember feeDb splitInput = .ok (some m) →
        splitInput.payment_method ≠ "debit" →
        (process_payment feeDb splitInput).2.balanceOf? m.id
          = some (m.balance - 50 * (cartUnits splitInput.items : Int)))
    ∧ (∀ m t', resolveMember feeDb splitInput = .ok (some m) →
        splitInput.payment_method = "debit" →
        (process_payment feeDb splitInput).2.transactions.find?
          (fun x => x.id = 1) = some t' →
        (t'.payment_method = "credit" →
          t'.amount_from_balance = m.balance - 50 * (cartUnits splitInput.items : Int)
          ∧ (process_payment feeDb splitInput).2.balanceOf? m.id = some 0)
        ∧ (t'.payment_method = "debit" →
          t'.amount_from_balance = (t'.total_amount : Int)
          ∧ (process_payment feeDb splitInput).2.balanceOf? m.id
              = some (m.balance - 50 * (cartUnits splitInput.items : Int)
                  - (t'.total_amount : Int)))) :=
  c3_product_fee_transfers feeDb splitInput 1 sysMember (by decide) (by rfl) (by rfl)
    (fun m hm => by
      have h2 : resolveMember feeDb splitInput = .ok (some cardMember) := by rfl
      rw [h2] at hm
      have h3 : cardMember = m := Option.some.inj (Except.ok.inj hm)
      rw [← h3]
      decide)

end Kiosk
